import Mathlib

/-!
# The recompute pipeline of `main.go`, embedded in Lean

The pure part of the pipeline is translated function by function:
`resolveOfficeCached`, `lookupRateCached`, `computeUpdateCached`,
`appendReason`, `buildReason`, `round2`, the row loops of `fetchRecordsBatch`,
`prefetchOffices`, `prefetchRates` and `handleTable`, and `batchUpdate` up to
the call of `Exec`.

Conventions of the embedding:

* a Go `map[K]V` is an association list with unique keys (`GoMap`): `m[k]`
  with the comma-ok form is `GoMap.get`, `m[k] = v` is `GoMap.set`, `len(m)`
  is `GoMap.len`;
* a Go `string` is a Lean `String`, the sequence of its runes; where the
  program slices a string by bytes, the string is kept as the bytes of its
  UTF-8 encoding (`utf8Bytes`);
* the case table of `unicode.ToUpper` belongs to the Go library: it is a
  parameter (`UpperCase`), and the statements hold for every table;
* `float64` is Lean's `Float` (IEEE 754 binary64 on both sides);
* `sql.NullString`, `sql.NullTime`, `sql.NullFloat64` are records with a
  `Valid` flag, as in `database/sql`;
* a `time.Time` is represented by the calendar fields of the instant in its
  own location, which is all that `Format("2006-01-02")` reads;
* an `error` is its message (`Except String`);
* a call that may execute a statement returns what it does (`BatchResult`):
  nothing, an error of its own, or the statement it hands to `Exec`;
* where the value of a `float64` expression matters, the arithmetic of IEEE 754
  binary64 is spelled out on exact values (`F64`): every operation rounds its
  exact result to the nearest `float64`, ties to even.
-/

namespace Recompute

/-! ## Go maps -/

/-- Lookup in an association list: the value of the first entry with key `k`. -/
def lookupEntries {κ ν : Type} [DecidableEq κ] : List (κ × ν) → κ → Option ν
  | [], _ => none
  | (k', v) :: m, k => if k' = k then some v else lookupEntries m k

/-- Assignment in an association list: overwrite the entry of `k`, or add one. -/
def assignEntries {κ ν : Type} [DecidableEq κ] : List (κ × ν) → κ → ν → List (κ × ν)
  | [], k, v => [(k, v)]
  | (k', v') :: m, k, v => if k' = k then (k, v) :: m else (k', v') :: assignEntries m k v

/-- A Go map: finitely many entries, at most one per key. -/
structure GoMap (κ ν : Type) where
  entries : List (κ × ν)

namespace GoMap

/-- The literal `map[K]V{}`. -/
def empty {κ ν : Type} : GoMap κ ν := ⟨[]⟩

/-- The comma-ok read `v, ok := m[k]`: `some v` when `ok`, `none` otherwise. -/
def get {κ ν : Type} [DecidableEq κ] (m : GoMap κ ν) (k : κ) : Option ν :=
  lookupEntries m.entries k

/-- The assignment `m[k] = v`. -/
def set {κ ν : Type} [DecidableEq κ] (m : GoMap κ ν) (k : κ) (v : ν) : GoMap κ ν :=
  ⟨assignEntries m.entries k v⟩

/-- The builtin `len(m)`. -/
def len {κ ν : Type} (m : GoMap κ ν) : Nat := m.entries.length

end GoMap

/-! ## Strings -/

/-- The runes `unicode.IsSpace` accepts (the White_Space property), which is
what `strings.TrimSpace` strips. -/
def isSpace (c : Char) : Bool :=
  let n := c.toNat
  (9 ≤ n && n ≤ 13) || n = 32 || n = 0x85 || n = 0xA0 || n = 0x1680 ||
  (0x2000 ≤ n && n ≤ 0x200A) || n = 0x2028 || n = 0x2029 || n = 0x202F ||
  n = 0x205F || n = 0x3000

/-- The function `strings.TrimSpace`: leading and trailing white space removed. -/
def trimSpace (s : String) : String :=
  String.mk ((s.data.dropWhile isSpace).reverse.dropWhile isSpace).reverse

/-- Upper-casing of one rune of the ASCII range, as the first lines of
`unicode.ToUpper` do it: the letters `a`..`z` are moved to `A`..`Z`, every other
rune is left as it is. -/
def asciiUpperRune (c : Char) : Char :=
  if 97 ≤ c.toNat ∧ c.toNat ≤ 122 then Char.ofNat (c.toNat - 32) else c

/-- The case table of `unicode.ToUpper`, which belongs to the Go library and not
to the repository: it is a parameter of the embedding, and every statement below
holds for every table. The three fields beside the mapping are the facts of the
library the proofs use: below 128 the mapping is `asciiUpperRune` (the ASCII
branch of `unicode.ToUpper`); the upper case of a rune is its own upper case;
and upper-casing neither makes nor removes white space. -/
class UpperCase where
  up : Char → Char
  ascii : ∀ c : Char, c.toNat < 128 → up c = asciiUpperRune c
  idem : ∀ c : Char, up (up c) = up c
  space : ∀ c : Char, isSpace (up c) = isSpace c

/-- The function `unicode.ToUpper`. -/
def toUpperRune [UpperCase] (c : Char) : Char := UpperCase.up c

/-- The function `strings.ToUpper`, rune by rune. -/
def toUpper [UpperCase] (s : String) : String := String.mk (s.data.map toUpperRune)

/-- Every rune of the string is in the ASCII range. -/
def IsAscii (s : String) : Prop := ∀ c ∈ s.data, c.toNat < 128

/-- The expression `strings.ToUpper(strings.TrimSpace(s))`, which the program
applies to every currency code. -/
def normCode [UpperCase] (s : String) : String := toUpper (trimSpace s)

/-- The function `strings.Join`. -/
def joinStrings : List String → String → String
  | [], _ => ""
  | [a], _ => a
  | a :: b :: rest, sep => a ++ sep ++ joinStrings (b :: rest) sep

/-- Substring containment, as `strings.Contains(s, t)` decides it. -/
def Contains (s t : String) : Prop := ∃ pre post : String, s = pre ++ t ++ post

/-- The UTF-8 encoding of a rune, the bytes a Go string holds for it. -/
def utf8Rune (c : Char) : List Nat :=
  let v := c.toNat
  if v < 128 then [v]
  else if v < 2048 then [192 + v / 64, 128 + v % 64]
  else if v < 65536 then [224 + v / 4096, 128 + v / 64 % 64, 128 + v % 64]
  else [240 + v / 262144, 128 + v / 4096 % 64, 128 + v / 64 % 64, 128 + v % 64]

/-- The UTF-8 encoding of a sequence of runes. -/
def utf8RuneList : List Char → List Nat
  | [] => []
  | c :: cs => utf8Rune c ++ utf8RuneList cs

/-- The bytes of a Go string. -/
def utf8Bytes (s : String) : List Nat := utf8RuneList s.data

/-! ## Data structures -/

structure AmountFieldSet where
  Base : String
  Usdt : String
  Cny : String
  deriving DecidableEq, Repr

structure FieldMapping where
  BaseAmount : String := ""
  CnyAmount : String := ""
  UsdtAmount : String := ""
  MainCode : String := ""
  SubCode : String := ""
  SiteCode : String := ""
  IDColumn : String := ""
  AmountSets : List AmountFieldSet := []
  deriving DecidableEq, Repr

/-- The type `sql.NullString`. -/
structure NullString where
  Str : String
  Valid : Bool
  deriving DecidableEq, Repr

/-- A `time.Time`, by the calendar fields of the instant in its location. -/
structure Time where
  year : Nat
  month : Nat
  day : Nat
  deriving DecidableEq, Repr

/-- The type `sql.NullTime`. -/
structure NullTime where
  Time : Time
  Valid : Bool
  deriving DecidableEq, Repr

/-- The type `sql.NullFloat64`. -/
structure NullFloat64 where
  Float64 : Float
  Valid : Bool

structure recordRow where
  ID : Nat
  Currency : NullString
  EntryDate : NullTime
  SubCode : String
  SiteCode : String
  Amounts : GoMap String NullFloat64

structure officeInfo where
  MainCode : String := ""
  SubCode : String := ""
  SiteCode : String := ""
  MainOffice : String := ""
  SubOffice : String := ""
  Site : String := ""
  deriving DecidableEq, Repr

/-- The key of the rate cache. The field `Date` holds the bytes of the Go
string: the slice `d[:10]` of `prefetchRates` cuts bytes, so the date of a key
can end inside a rune, and Go compares the keys of a map byte by byte. -/
structure rateKey where
  Date : List Nat
  From : String
  To : String
  deriving DecidableEq, Repr

/-- The values stored in an update set (`map[string]any`): a `float64`, an
`int`, a `string`, a `uint64` (the row id), or `nil`. -/
inductive Val where
  | float (f : Float)
  | int (n : Int)
  | str (s : String)
  | uint (n : Nat)
  | null

/-! ## Helpers -/

def round2 (v : Float) : Float := Float.round (v * 100) / 100

/-- A decimal number left-padded with zeros to `width` digits. -/
def padZero (width n : Nat) : String :=
  String.mk (List.replicate (width - (Nat.repr n).length) (Char.ofNat 48)) ++ Nat.repr n

/-- The call `t.Format("2006-01-02")`. -/
def formatDate (t : Time) : String :=
  padZero 4 t.year ++ "-" ++ padZero 2 t.month ++ "-" ++ padZero 2 t.day

/-! ## Office and rate lookups in the caches -/

def resolveOfficeCached (mapping : FieldMapping) (rec : recordRow)
    (siteMap subMap : GoMap String officeInfo) : officeInfo × String :=
  if mapping.SiteCode ≠ "" ∧ rec.SiteCode ≠ "" then
    match siteMap.get rec.SiteCode with
    | some oi => (oi, "")
    | none => ({}, "office not found by site_code")
  else if mapping.SubCode ≠ "" ∧ rec.SubCode ≠ "" then
    match subMap.get rec.SubCode with
    | some oi => (oi, "")
    | none => ({}, "office not found by sub_code")
  else ({}, "")

/-- The function `lookupRateCached`; `day` is the string the source reads back
as `k.Date` in the error text. -/
def lookupRateCached [UpperCase] (rateMap : GoMap rateKey Float) (date : Time) (src dst : String) :
    Except String Float :=
  let src := normCode src
  let dst := normCode dst
  if src = dst then .ok 1
  else
    let day := formatDate date
    let k : rateKey := { Date := utf8Bytes day, From := src, To := dst }
    match rateMap.get k with
    | some r => .ok r
    | none => .error ("lookupRate: no rate for " ++ day ++ " " ++ src ++ "->" ++ dst)

/-! ## The per-record computation -/

def appendReason (cur add : String) : String :=
  if cur = "" then add
  else if add = "" then cur
  else cur ++ "; " ++ add

def buildReason (officeReason rateReason : String) : String :=
  let parts : List String := []
  let parts := if officeReason ≠ "" then parts ++ ["office_reason=" ++ officeReason] else parts
  let parts := if rateReason ≠ "" then parts ++ ["rate_reason=" ++ rateReason] else parts
  joinStrings parts "; "

/-- The variables the loop over the amount-field-sets of `computeUpdateCached`
reads and writes. -/
structure LoopState where
  allOK : Bool
  rateReason : String
  update : GoMap String Val
  convertedCount : Nat

/-- The `switch cur` of `computeUpdateCached`: the pair
`(amountCny, amountUsdt)` when the rates are found, the error text otherwise. -/
def convertAmount [UpperCase] (rateMap : GoMap rateKey Float) (cur : String) (dt : Time) (base : Float) :
    Except String (Float × Float) :=
  if cur = "CNY" then
    match lookupRateCached rateMap dt "CNY" "USDT" with
    | .error e => .error e
    | .ok r => .ok (base, round2 (base * r))
  else if cur = "USDT" then
    match lookupRateCached rateMap dt "USDT" "CNY" with
    | .error e => .error e
    | .ok r => .ok (round2 (base * r), base)
  else
    match lookupRateCached rateMap dt cur "CNY", lookupRateCached rateMap dt cur "USDT" with
    | .error e1, _ => .error e1
    | .ok _, .error e2 => .error e2
    | .ok rCNY, .ok rUSDT => .ok (round2 (base * rCNY), round2 (base * rUSDT))

/-- One iteration of `for _, set := range sets` in `computeUpdateCached`. -/
def stepSet [UpperCase] (rec : recordRow) (rateMap : GoMap rateKey Float) (table : String)
    (st : LoopState) (set : AmountFieldSet) : LoopState :=
  match rec.Amounts.get set.Base with
  | none => st
  | some baseVal =>
    if table = "acc_channel_info" then st
    else if !rec.Currency.Valid || !rec.EntryDate.Valid then
      let r1 := if !rec.Currency.Valid then appendReason st.rateReason "currency NULL"
                else st.rateReason
      let r2 := if !rec.EntryDate.Valid then appendReason r1 "entry_date NULL" else r1
      { st with allOK := false, rateReason := r2 }
    else
      match convertAmount rateMap (normCode rec.Currency.Str) rec.EntryDate.Time
          baseVal.Float64 with
      | .ok (amountCny, amountUsdt) =>
        { st with
          update := (st.update.set set.Cny (.float amountCny)).set set.Usdt (.float amountUsdt)
          convertedCount := st.convertedCount + 1 }
      | .error rReason =>
        { st with allOK := false, rateReason := appendReason st.rateReason rReason }

/-- The whole loop over `sets`, from the state the function starts it in. -/
def convertSets [UpperCase] (rec : recordRow) (rateMap : GoMap rateKey Float) (table : String)
    (officeReason : String) (sets : List AmountFieldSet) : LoopState :=
  sets.foldl (stepSet rec rateMap table)
    { allOK := decide (officeReason = ""), rateReason := "", update := GoMap.empty,
      convertedCount := 0 }

/-- The block of `computeUpdateCached` that copies the resolved office into the
update set. -/
def fillOffice (mapping : FieldMapping) (office : officeInfo) (update : GoMap String Val) :
    GoMap String Val :=
  let update := if office.MainCode ≠ "" ∧ mapping.MainCode ≠ "" then
    update.set mapping.MainCode (.str office.MainCode) else update
  let update := if office.SubCode ≠ "" ∧ mapping.SubCode ≠ "" then
    update.set mapping.SubCode (.str office.SubCode) else update
  let update := if office.SiteCode ≠ "" ∧ mapping.SiteCode ≠ "" then
    update.set mapping.SiteCode (.str office.SiteCode) else update
  let update := if office.MainOffice ≠ "" then
    update.set "main_office" (.str office.MainOffice) else update
  let update := if office.SubOffice ≠ "" then
    update.set "sub_office" (.str office.SubOffice) else update
  let update := if office.Site ≠ "" then
    update.set "site" (.str office.Site) else update
  update

def computeUpdateCached [UpperCase] (mapping : FieldMapping) (sets : List AmountFieldSet) (rec : recordRow)
    (siteMap subMap : GoMap String officeInfo) (rateMap : GoMap rateKey Float)
    (table : String) : GoMap String Val × String :=
  let (office, officeReason) := resolveOfficeCached mapping rec siteMap subMap
  let st := convertSets rec rateMap table officeReason sets
  let update := fillOffice mapping office st.update
  let reasonText := buildReason officeReason st.rateReason
  if st.allOK then
    ((update.set "status" (.int 1)).set "recompute_info" .null, reasonText)
  else
    ((update.set "status" (.int 2)).set "recompute_info" (.str reasonText), reasonText)

/-! ## Predicates of the specification -/

/-- The set is converted successfully: whatever the loop state, the iteration
for it writes a CNY amount under the set's CNY column, then a USDT amount under
its USDT column, counts the conversion and changes nothing else. -/
def ConvertedOK [UpperCase] (rec : recordRow) (rateMap : GoMap rateKey Float) (table : String)
    (set : AmountFieldSet) : Prop :=
  ∃ cny usdt : Float, ∀ st : LoopState,
    stepSet rec rateMap table st set =
      { st with
        update := (st.update.set set.Cny (.float cny)).set set.Usdt (.float usdt)
        convertedCount := st.convertedCount + 1 }

/-- The record's amounts hold no entry under the base column of the set: the
test `baseVal, ok := rec.Amounts[baseCol]` of the loop fails and the set is
skipped. -/
def NoBaseEntry (rec : recordRow) (set : AmountFieldSet) : Prop :=
  rec.Amounts.get set.Base = none

/-- The set has no base value to convert, in the words of the specification:
the amount under its base column is absent or null. -/
def NoBaseValue (rec : recordRow) (set : AmountFieldSet) : Prop :=
  ∀ bv : NullFloat64, rec.Amounts.get set.Base = some bv → bv.Valid = false

/-- The status flag of an update set. -/
def statusOf (update : GoMap String Val) : Option Val := update.get "status"

/-- The sets whose iteration leaves `allOK` as it is. -/
def SetGood [UpperCase] (rec : recordRow) (rateMap : GoMap rateKey Float) (table : String)
    (set : AmountFieldSet) : Prop :=
  ConvertedOK rec rateMap table set ∨ NoBaseEntry rec set ∨ table = "acc_channel_info"

/-- The condition the loop and office resolution leave `allOK` under: office
resolution reported no failure, and every amount-field-set either was converted
successfully, or has no entry under its base column, or belongs to the
office-only table. -/
def FullyResolved [UpperCase] (mapping : FieldMapping) (sets : List AmountFieldSet)
    (rec : recordRow) (siteMap subMap : GoMap String officeInfo)
    (rateMap : GoMap rateKey Float) (table : String) : Prop :=
  (resolveOfficeCached mapping rec siteMap subMap).2 = "" ∧
  ∀ set ∈ sets, ConvertedOK rec rateMap table set ∨ NoBaseEntry rec set ∨
    table = "acc_channel_info"

/-- The columns `computeUpdateCached` may assign after the iteration for a
set: the CNY and USDT columns of the sets that follow it, the office columns,
and the two status columns. -/
def laterColumns (mapping : FieldMapping) : List AmountFieldSet → List String
  | [] => [mapping.MainCode, mapping.SubCode, mapping.SiteCode, "main_office", "sub_office",
      "site", "status", "recompute_info"]
  | s :: post => s.Cny :: s.Usdt :: laterColumns mapping post

/-- The iteration for `set`, which stands between `pre` and `post` in the list
of sets, writes `cny` under the set's CNY column and then `usdt` under its USDT
column and counts the conversion; and the update set returned holds these values
under the two columns unless a later assignment of the function overwrites
them. -/
def WritesAmounts [UpperCase] (mapping : FieldMapping) (pre : List AmountFieldSet) (set : AmountFieldSet)
    (post : List AmountFieldSet) (rec : recordRow) (siteMap subMap : GoMap String officeInfo)
    (rateMap : GoMap rateKey Float) (table : String) (cny usdt : Float) : Prop :=
  convertSets rec rateMap table (resolveOfficeCached mapping rec siteMap subMap).2
      (pre ++ [set]) =
    { convertSets rec rateMap table (resolveOfficeCached mapping rec siteMap subMap).2 pre with
      update := ((convertSets rec rateMap table
        (resolveOfficeCached mapping rec siteMap subMap).2 pre).update.set
          set.Cny (.float cny)).set set.Usdt (.float usdt)
      convertedCount := (convertSets rec rateMap table
        (resolveOfficeCached mapping rec siteMap subMap).2 pre).convertedCount + 1 } ∧
  (set.Usdt ∉ laterColumns mapping post →
    (computeUpdateCached mapping (pre ++ set :: post) rec siteMap subMap rateMap table).1.get
      set.Usdt = some (.float usdt)) ∧
  (set.Cny ≠ set.Usdt → set.Cny ∉ laterColumns mapping post →
    (computeUpdateCached mapping (pre ++ set :: post) rec siteMap subMap rateMap table).1.get
      set.Cny = some (.float cny))

/-- The text of the error `lookupRateCached` returns when the rate map has no
entry for the day `day` and the pair `src`, `dst`. -/
def noRateText (day src dst : String) : String :=
  "lookupRate: no rate for " ++ day ++ " " ++ src ++ "->" ++ dst

/-- The iteration for `set` fails with the error text `e`: it writes nothing, so
that the update set returned has neither column of the set unless another
assignment of the function writes it; the status is 2; and the reason returned
has `rate_reason=` followed by `e`. -/
def RateFailure [UpperCase] (mapping : FieldMapping) (pre : List AmountFieldSet) (set : AmountFieldSet)
    (post : List AmountFieldSet) (rec : recordRow) (siteMap subMap : GoMap String officeInfo)
    (rateMap : GoMap rateKey Float) (table : String) (e : String) : Prop :=
  (convertSets rec rateMap table (resolveOfficeCached mapping rec siteMap subMap).2
      (pre ++ [set])).update =
    (convertSets rec rateMap table (resolveOfficeCached mapping rec siteMap subMap).2
      pre).update ∧
  (set.Cny ∉ laterColumns mapping (pre ++ post) →
    (computeUpdateCached mapping (pre ++ set :: post) rec siteMap subMap rateMap table).1.get
      set.Cny = none) ∧
  (set.Usdt ∉ laterColumns mapping (pre ++ post) →
    (computeUpdateCached mapping (pre ++ set :: post) rec siteMap subMap rateMap table).1.get
      set.Usdt = none) ∧
  statusOf (computeUpdateCached mapping (pre ++ set :: post) rec siteMap subMap rateMap
    table).1 = some (.int 2) ∧
  ∃ a b c : String,
    (computeUpdateCached mapping (pre ++ set :: post) rec siteMap subMap rateMap table).2 =
      a ++ "rate_reason=" ++ b ++ e ++ c

/-- The first shape of an update set: status 1, `recompute_info` nil, and an
empty reason returned. -/
def ResolvedShape (update : GoMap String Val) (reason : String) : Prop :=
  update.get "status" = some (.int 1) ∧ update.get "recompute_info" = some .null ∧ reason = ""

/-- The second shape of an update set: status 2, `recompute_info` equal to the
reason returned, and that reason non-empty. -/
def PendingShape (update : GoMap String Val) (reason : String) : Prop :=
  update.get "status" = some (.int 2) ∧ update.get "recompute_info" = some (.str reason) ∧
    reason ≠ ""

/-- The invariant of the loop over the sets: while `allOK` holds no reason has
been recorded, and once it fails there is an office reason or a rate reason. -/
def LoopInv (officeReason : String) (st : LoopState) : Prop :=
  (st.allOK = true → officeReason = "" ∧ st.rateReason = "") ∧
  (st.allOK = false → officeReason ≠ "" ∨ st.rateReason ≠ "")

/-! ## The schema registry -/

def TableFieldMappings : GoMap String FieldMapping := ⟨[
  ("acc_cashbook",
    { MainCode := "main_office", SubCode := "sub_code", IDColumn := "id",
      AmountSets := [
        ⟨"amount", "amount_usdt", "amount_cny"⟩,
        ⟨"converted_amount", "converted_amount_usdt", "converted_amount_cny"⟩] }),
  ("acc_expenses",
    { MainCode := "main_office", SubCode := "sub_office", SiteCode := "site_code",
      IDColumn := "id",
      AmountSets := [
        ⟨"amount", "amount_usdt", "amount_cny"⟩,
        ⟨"converted_amount", "converted_amount_usdt", "converted_amount_cny"⟩] }),
  ("acc_borrow_lend",
    { MainCode := "main_office", SubCode := "sub_office", SiteCode := "site_code",
      IDColumn := "id",
      AmountSets := [
        ⟨"amount", "amount_usdt", "amount_cny"⟩,
        ⟨"converted_amount", "converted_amount_usdt", "converted_amount_cny"⟩] }),
  ("acc_recharge_withdraw",
    { MainCode := "main_office", SubCode := "sub_office", SiteCode := "site_code",
      IDColumn := "id",
      AmountSets := [
        ⟨"recharge_amount", "recharge_amount_usdt", "recharge_amount_cny"⟩,
        ⟨"withdraw_amount", "withdraw_amount_usdt", "withdraw_amount_cny"⟩,
        ⟨"commission", "commission_usdt", "commission_cny"⟩,
        ⟨"discount", "discount_usdt", "discount_cny"⟩,
        ⟨"first_topup_amount", "first_topup_amount_USDT", "first_topup_amount_CNY"⟩,
        ⟨"manual_score_increase", "manual_score_increase_usdt", "manual_score_increase_cny"⟩,
        ⟨"manual_score_decrease", "manual_score_decrease_usdt", "manual_score_decrease_cny"⟩,
        ⟨"total_score_balance", "total_score_balance_usdt", "total_score_balance_cny"⟩] }),
  ("acc_channel_info",
    { MainCode := "main_office", SubCode := "sub_office", SiteCode := "site_code",
      IDColumn := "id" }),
  ("acc_ad_performance_analysis",
    { MainCode := "main_office", SubCode := "sub_office", SiteCode := "site_code",
      IDColumn := "id",
      AmountSets := [
        ⟨"first_topup_amount", "first_topup_amount_USDT", "first_topup_amount_CNY"⟩,
        ⟨"repeat_topup_amount", "repeat_topup_amount_USDT", "repeat_topup_amount_CNY"⟩,
        ⟨"d2_topup_amount", "d2_topup_amount_USDT", "d2_topup_amount_CNY"⟩,
        ⟨"d3_topup_amount", "d3_topup_amount_USDT", "d3_topup_amount_CNY"⟩,
        ⟨"d4_topup_amount", "d4_topup_amount_USDT", "d4_topup_amount_CNY"⟩,
        ⟨"d5_topup_amount", "d5_topup_amount_USDT", "d5_topup_amount_CNY"⟩,
        ⟨"d6_topup_amount", "d6_topup_amount_USDT", "d6_topup_amount_CNY"⟩,
        ⟨"d7_topup_amount", "d7_topup_amount_USDT", "d7_topup_amount_CNY"⟩,
        ⟨"d14_topup_amount", "d14_topup_amount_USDT", "d14_topup_amount_CNY"⟩,
        ⟨"d15_topup_amount", "d15_topup_amount_USDT", "d15_topup_amount_CNY"⟩,
        ⟨"d30_topup_amount", "d30_topup_amount_USDT", "d30_topup_amount_CNY"⟩,
        ⟨"d45_topup_amount", "d45_topup_amount_USDT", "d45_topup_amount_CNY"⟩,
        ⟨"d60_topup_amount", "d60_topup_amount_USDT", "d60_topup_amount_CNY"⟩] }),
  ("acc_balance_sheet",
    { MainCode := "main_office", SubCode := "sub_office", SiteCode := "site_code",
      IDColumn := "id",
      AmountSets := [
        ⟨"ending_amount", "ending_amount_USDT", "ending_amount_CNY"⟩,
        ⟨"income_amount", "income_amount_USDT", "income_amount_CNY"⟩,
        ⟨"non_member_income", "non_member_income_USDT", "non_member_income_CNY"⟩,
        ⟨"income_fee", "income_fee_USDT", "income_fee_CNY"⟩,
        ⟨"expense_amount", "expense_amount_USDT", "expense_amount_CNY"⟩,
        ⟨"non_member_expense", "non_member_expense_USDT", "non_member_expense_CNY"⟩,
        ⟨"expense_fee", "expense_fee_USDT", "expense_fee_CNY"⟩,
        ⟨"balance_difference", "balance_difference_USDT", "balance_difference_CNY"⟩,
        ⟨"opening_balance", "opening_balance_USDT", "opening_balance_CNY"⟩,
        ⟨"backend_revenue", "backend_revenue_USDT", "backend_revenue_CNY"⟩,
        ⟨"order_adjustment", "order_adjustment_USDT", "order_adjustment_CNY"⟩,
        ⟨"converted_amount", "converted_amount_USDT", "converted_amount_CNY"⟩,
        ⟨"balance_verification", "balance_verification_USDT", "balance_verification_CNY"⟩,
        ⟨"difference", "difference_USDT", "difference_CNY"⟩] }),
  ("acc_revenue_expense_adjustments",
    { MainCode := "main_office", SubCode := "sub_office", SiteCode := "site_code",
      IDColumn := "id",
      AmountSets := [
        ⟨"amount", "amount_usdt", "amount_cny"⟩,
        ⟨"converted_amount", "converted_amount_usdt", "converted_amount_cny"⟩] }),
  ("acc_operational_information",
    { MainCode := "main_office", SubCode := "sub_office", SiteCode := "site_code",
      IDColumn := "id",
      AmountSets := [
        ⟨"valid_bet", "valid_bet_USDT", "valid_bet_CNY"⟩,
        ⟨"cashback", "cashback_USDT", "cashback_CNY"⟩,
        ⟨"profit_and_loss", "profit_and_loss_USDT", "profit_and_loss_CNY"⟩] })]⟩

/-! ## The row loops of the prefetchers -/

/-- The columns `amountCols` of `fetchRecordsBatch` collects from the sets:
every non-empty base, USDT and CNY column, each once. -/
def amountCols (sets : List AmountFieldSet) : List String :=
  sets.foldl (fun acc s =>
    let acc := if s.Base ≠ "" ∧ s.Base ∉ acc then acc ++ [s.Base] else acc
    let acc := if s.Usdt ≠ "" ∧ s.Usdt ∉ acc then acc ++ [s.Usdt] else acc
    if s.Cny ≠ "" ∧ s.Cny ∉ acc then acc ++ [s.Cny] else acc) []

/-- Lexicographic order on rune sequences, by code point (which is the byte order
of their UTF-8 encodings). -/
def runesLess : List Char → List Char → Bool
  | [], [] => false
  | [], _ :: _ => true
  | _ :: _, [] => false
  | a :: as, b :: bs =>
    if a.toNat < b.toNat then true
    else if b.toNat < a.toNat then false
    else runesLess as bs

/-- The comparison `a < b` of two Go strings. -/
def stringLess (a b : String) : Bool := runesLess a.data b.data

/-- The call `sort.Strings`: the strings in increasing order. -/
def sortStrings (l : List String) : List String :=
  l.insertionSort (fun a b => stringLess b a = false)

/-- The list `amountColList` of `fetchRecordsBatch`. -/
def amountColList (sets : List AmountFieldSet) : List String :=
  sortStrings (amountCols sets)

/-- What `Scan` stores in a `sql.NullFloat64`: the number with `Valid` set, or
the zero value for SQL `NULL`. -/
def scanNullFloat64 : Option Float → NullFloat64
  | some f => { Float64 := f, Valid := true }
  | none => { Float64 := 0, Valid := false }

/-- What `Scan` stores in a `sql.NullString`. -/
def scanNullString : Option String → NullString
  | some s => { Str := s, Valid := true }
  | none => { Str := "", Valid := false }

/-- What `Scan` stores in a `sql.NullTime`; the zero `time.Time` is
January 1 of year 1. -/
def scanNullTime : Option Time → NullTime
  | some t => { Time := t, Valid := true }
  | none => { Time := ⟨1, 1, 1⟩, Valid := false }

/-- One row of the result set of the `SELECT` of `fetchRecordsBatch`: the id,
the nullable currency, entry date, sub code and site code, and the nullable
amounts in the order of `amountColList`. -/
structure fetchedRow where
  id : Nat
  currency : Option String
  entryDate : Option Time
  sub : Option String
  site : Option String
  amounts : List (Option Float)

/-- The map `rr.Amounts` that the body of `for rows.Next()` in
`fetchRecordsBatch` builds: one scanned `sql.NullFloat64` under every column of
`amountColList`. -/
def scanAmounts (cols : List String) (vals : List (Option Float)) :
    GoMap String NullFloat64 :=
  (cols.zip vals).foldl (fun m cv => m.set cv.1 (scanNullFloat64 cv.2)) GoMap.empty

/-- The record the body of `for rows.Next()` in `fetchRecordsBatch` builds from
one row of the result set. -/
def scanRecord (table : String) (mapping : FieldMapping) (cols : List String)
    (row : fetchedRow) : recordRow :=
  let includeCurDate := table ≠ "acc_channel_info"
  let sub := if mapping.SubCode ≠ "" then scanNullString row.sub else scanNullString none
  let site := if mapping.SiteCode ≠ "" then scanNullString row.site else scanNullString none
  { ID := row.id
    Currency := if includeCurDate then scanNullString row.currency else scanNullString none
    EntryDate := if includeCurDate then scanNullTime row.entryDate else scanNullTime none
    SubCode := if sub.Valid then sub.Str else ""
    SiteCode := if site.Valid then site.Str else ""
    Amounts := scanAmounts cols row.amounts }

/-- One row of the site query of `prefetchOffices`; `id` is the primary key
`t.id` the result set is ordered by (it is not selected). -/
structure siteRow where
  id : Nat
  sc : String
  mc : String
  mn : String
  sbc : String
  sbn : String
  stn : String
  deriving DecidableEq, Repr

/-- The office record the site loop of `prefetchOffices` stores for a row. -/
def siteOffice (r : siteRow) : officeInfo :=
  { MainCode := r.mc, MainOffice := r.mn, SubCode := r.sbc, SubOffice := r.sbn,
    SiteCode := r.sc, Site := r.sc }

/-- The loop `for rows.Next()` over the site query of `prefetchOffices`. -/
def prefetchOfficesSiteLoop (rows : List siteRow) : GoMap String officeInfo :=
  rows.foldl (fun siteMap r => siteMap.set r.sc (siteOffice r)) GoMap.empty

/-- One row of the query of `prefetchRates`; `id` is the primary key the result
set is ordered by (it is not selected). -/
structure rateRow where
  id : Nat
  d : String
  f : String
  t : String
  rate : Float

/-- The key `k` the loop of `prefetchRates` builds from a row: the date
trimmed and, when it has 10 bytes or more, cut to its first 10 bytes
(`d[:10]`); the currencies trimmed and upper-cased. -/
def rateRowKey [UpperCase] (r : rateRow) : rateKey :=
  let d := utf8Bytes (trimSpace r.d)
  let d := if d.length ≥ 10 then d.take 10 else d
  { Date := d, From := normCode r.f, To := normCode r.t }

/-- The loop `for rows.Next()` of `prefetchRates`. -/
def prefetchRatesLoop [UpperCase] (rows : List rateRow) : GoMap rateKey Float :=
  rows.foldl (fun rateMap r =>
    let k := rateRowKey r
    match rateMap.get k with
    | none => rateMap.set k r.rate
    | some _ => rateMap) GoMap.empty

/-! ## The record loop of the table driver -/

/-- The loop `for _, id := range ids` of `handleTable`, which fills
`updatesBatch`. -/
def buildUpdatesBatch [UpperCase] (mapping : FieldMapping) (sets : List AmountFieldSet)
    (recMap : GoMap Nat recordRow) (siteMap subMap : GoMap String officeInfo)
    (rateMap : GoMap rateKey Float) (table : String) (ids : List Nat) :
    List (GoMap String Val) :=
  ids.foldl (fun updatesBatch id =>
    match recMap.get id with
    | none => updatesBatch
    | some rec =>
      let upd := (computeUpdateCached mapping sets rec siteMap subMap rateMap table).1
      if upd.len = 0 then updatesBatch
      else updatesBatch ++ [upd.set mapping.IDColumn (.uint id)]) []

/-! ## The batch writer -/

/-- The keys of a Go map. -/
def GoMap.keys {κ ν : Type} (m : GoMap κ ν) : List κ := m.entries.map Prod.fst

/-- A Go map holds one entry per key. -/
def GoMap.WF {κ ν : Type} (m : GoMap κ ν) : Prop := m.keys.Nodup

/-- The read `m[k]` of a map of slices: the nil slice when the key is absent. -/
def sliceAt {ν : Type} (m : GoMap String (List ν)) (k : String) : List ν := (m.get k).getD []

/-- The statement `m[k] = append(m[k], xs...)`. -/
def appendAt {ν : Type} (m : GoMap String (List ν)) (k : String) (xs : List ν) :
    GoMap String (List ν) :=
  m.set k (sliceAt m k ++ xs)

/-- The variables the first loop of `batchUpdate` fills. -/
structure CaseState where
  ids : List Val
  cases : GoMap String (List String)
  colArgs : GoMap String (List Val)

/-- The read `id := r[idCol]`: nil when the row has no such key. -/
def rowId (idCol : String) (r : GoMap String Val) : Val := (r.get idCol).getD .null

/-- One iteration of `for col, val := range r` in `batchUpdate`. -/
def addCell (idCol : String) (id : Val) (st : CaseState) (cell : String × Val) : CaseState :=
  if cell.1 = idCol then st
  else
    { st with
      cases := appendAt st.cases cell.1 ["WHEN ? THEN ?"]
      colArgs := appendAt st.colArgs cell.1 [id, cell.2] }

/-- One iteration of `for _, r := range rows` in `batchUpdate`. -/
def addRow (idCol : String) (st : CaseState) (r : GoMap String Val) : CaseState :=
  r.entries.foldl (addCell idCol (rowId idCol r)) { st with ids := st.ids ++ [rowId idCol r] }

/-- The first loop of `batchUpdate`, over all rows. -/
def collectCases (idCol : String) (rows : List (GoMap String Val)) : CaseState :=
  rows.foldl (addRow idCol) { ids := [], cases := GoMap.empty, colArgs := GoMap.empty }

/-- The SET clause `batchUpdate` formats for one column. -/
def setClause (idCol : String) (cases : GoMap String (List String)) (col : String) : String :=
  "`" ++ col ++ "` = CASE `" ++ idCol ++ "` " ++ joinStrings (sliceAt cases col) " " ++
    " ELSE `" ++ col ++ "` END"

/-- The variables the second loop of `batchUpdate` fills. -/
structure ClauseState where
  setClauses : List String
  args : List Val

/-- The loop `for _, col := range cols` of `batchUpdate`. -/
def collectClauses (idCol : String) (st : CaseState) (cols : List String) : ClauseState :=
  cols.foldl (fun acc col =>
    { setClauses := acc.setClauses ++ [setClause idCol st.cases col]
      args := acc.args ++ sliceAt st.colArgs col }) { setClauses := [], args := [] }

/-- The function `strings.Repeat`. -/
def repeatString (s : String) : Nat → String
  | 0 => ""
  | n + 1 => s ++ repeatString s n

/-- The call `strings.TrimRight(s, cut)` for a cutset of one rune. -/
def trimRight (s : String) (cut : Char) : String :=
  String.mk (s.data.reverse.dropWhile (fun c => decide (c = cut))).reverse

/-- The call `strings.Count(s, c)` for a substring of one rune. -/
def countString (s : String) (c : Char) : Nat := s.data.count c

/-- The rune `?`. -/
def questionMark : Char := Char.ofNat 63

/-- The rune `,`. -/
def comma : Char := Char.ofNat 44

/-- The statement `batchUpdate` builds: the text and the positional arguments,
with the list of ids. -/
structure Statement where
  sqlStr : String
  args : List Val
  ids : List Val

/-- The part of `batchUpdate` that builds the statement, from the first loop to
`args = append(args, ids...)`. -/
def buildStatement (table idCol : String) (rows : List (GoMap String Val)) : Statement :=
  let st := collectCases idCol rows
  let cols := sortStrings st.cases.keys
  let cl := collectClauses idCol st cols
  let inPlaceholders := trimRight (repeatString "?," st.ids.length) comma
  let sqlStr := "UPDATE `" ++ table ++ "` SET " ++ joinStrings cl.setClauses ", " ++
    " WHERE `" ++ idCol ++ "` IN (" ++ inPlaceholders ++ ")"
  { sqlStr := sqlStr, args := cl.args ++ st.ids, ids := st.ids }

/-- What a call of `batchUpdate` does: it returns nil without a statement, or it
returns an error of its own without a statement, or it executes one statement
(and returns the error of that execution). -/
inductive BatchResult where
  | nothing
  | error (msg : String)
  | exec (sqlStr : String) (args : List Val)

def batchUpdate (table idCol : String) (rows : List (GoMap String Val)) (batchSize : Int) :
    BatchResult :=
  if rows.length = 0 then .nothing
  else
    let b := buildStatement table idCol rows
    if countString b.sqlStr questionMark ≠ b.args.length then
      .error ("batchUpdate: placeholder mismatch sql ?=" ++
        toString (countString b.sqlStr questionMark) ++ " args=" ++ toString b.args.length)
    else if (b.ids.length : Int) ≠ batchSize then
      .error ("batchUpdate: ids count " ++ toString b.ids.length ++ " != batchSize " ++
        toString batchSize)
    else .exec b.sqlStr b.args

/-- The list `cols` of `batchUpdate` after `sort.Strings`. -/
def batchColumns (idCol : String) (rows : List (GoMap String Val)) : List String :=
  sortStrings (collectCases idCol rows).cases.keys

/-- The string has no `?` in it. -/
def NoQuestionMark (s : String) : Prop := questionMark ∉ s.data

/-- The positional arguments of one row under one column: the row id and the
value, when the row has the column and it is not the id column. -/
def cellArgs (idCol col : String) (r : GoMap String Val) : List Val :=
  if col = idCol then []
  else
    match r.get col with
    | some v => [rowId idCol r, v]
    | none => []

/-- The columns of a row other than the id column. -/
def dataColumns (idCol : String) (r : GoMap String Val) : List String :=
  r.keys.filter (fun k => decide (k ≠ idCol))

/-! ## The arithmetic of float64, exactly -/

/-- A `float64`: a finite value `± mant * 2^exp`, an infinity, or NaN. The
operations below return finite values in canonical form: `mant = 0` and
`exp = 0`; or `2^52 ≤ mant < 2^53` and `-1074 ≤ exp ≤ 971`; or `mant < 2^52`
and `exp = -1074` (subnormal). -/
inductive F64 where
  | fin (neg : Bool) (mant : Nat) (exp : Int)
  | inf (neg : Bool)
  | nan
  deriving DecidableEq, Repr

/-- The quotient `n / d` rounded to the nearest natural number, ties to even. -/
def roundNearestEven (n d : Nat) : Nat :=
  if 2 * (n % d) < d then n / d
  else if d < 2 * (n % d) then n / d + 1
  else if (n / d) % 2 = 0 then n / d
  else n / d + 1

/-- The quotient `n / d` rounded to the nearest natural number, ties upwards
(away from zero). -/
def roundHalfAway (n d : Nat) : Nat :=
  if d ≤ 2 * (n % d) then n / d + 1 else n / d

/-- The binary logarithm of `n`, rounded down, by halving at most `fuel` times. -/
def floorLog2Aux : Nat → Nat → Nat
  | 0, _ => 0
  | fuel + 1, n => if n < 2 then 0 else floorLog2Aux fuel (n / 2) + 1

/-- The binary logarithm of `n`, rounded down (0 for `n = 0`). -/
def floorLog2 (n : Nat) : Nat := floorLog2Aux n n

/-- The fraction `num / (den * 2^e)` with natural numerator and denominator. -/
def scaleBy (num den : Nat) (e : Int) : Nat × Nat :=
  if 0 ≤ e then (num, den * 2 ^ e.toNat) else (num * 2 ^ (-e).toNat, den)

/-- The `float64` nearest to `± num / den` (`den > 0`), ties to even: the
rounding of IEEE 754 binary64 that every arithmetic operation of Go applies to
its exact result, and the conversion of a decimal constant. -/
def F64.ofRatio (neg : Bool) (num den : Nat) : F64 :=
  if num = 0 then .fin neg 0 0
  else
    let e0 : Int := (floorLog2 num : Int) - (floorLog2 den : Int) - 52
    let s0 := scaleBy num den e0
    let e1 : Int := if 2 ^ 52 ≤ s0.1 / s0.2 then e0 else e0 - 1
    let e : Int := if e1 < -1074 then -1074 else e1
    let s := scaleBy num den e
    let m := roundNearestEven s.1 s.2
    if m = 0 then .fin neg 0 0
    else if m = 2 ^ 53 then (if 971 < e + 1 then .inf neg else .fin neg (2 ^ 52) (e + 1))
    else if 971 < e then .inf neg
    else .fin neg m e

/-- The product `x * y` of two `float64`. -/
def F64.mul : F64 → F64 → F64
  | .nan, _ => .nan
  | _, .nan => .nan
  | .inf a, .inf b => .inf (xor a b)
  | .inf a, .fin b m _ => if m = 0 then .nan else .inf (xor a b)
  | .fin a m _, .inf b => if m = 0 then .nan else .inf (xor a b)
  | .fin a m1 e1, .fin b m2 e2 =>
    let s := scaleBy (m1 * m2) 1 (-(e1 + e2))
    F64.ofRatio (xor a b) s.1 s.2

/-- The quotient `x / y` of two `float64`. -/
def F64.div : F64 → F64 → F64
  | .nan, _ => .nan
  | _, .nan => .nan
  | .inf _, .inf _ => .nan
  | .inf a, .fin b _ _ => .inf (xor a b)
  | .fin a _ _, .inf b => .fin (xor a b) 0 0
  | .fin a m1 e1, .fin b m2 e2 =>
    if m2 = 0 then (if m1 = 0 then .nan else .inf (xor a b))
    else
      let s := scaleBy m1 m2 (e2 - e1)
      F64.ofRatio (xor a b) s.1 s.2

/-- The function `math.Round`: the nearest integer, rounding half away from
zero; infinities and NaN are returned as they are. -/
def F64.round : F64 → F64
  | .nan => .nan
  | .inf s => .inf s
  | .fin neg m e =>
    if 0 ≤ e then .fin neg m e
    else F64.ofRatio neg (roundHalfAway m (2 ^ (-e).toNat)) 1

/-- The `float64` of a decimal constant `num / den`. -/
def F64.ofDecimal (num den : Nat) : F64 := F64.ofRatio false num den

/-- The function `round2` on exact `float64` values: the same expression,
`math.Round(v*100) / 100`. -/
def round2Exact (v : F64) : F64 :=
  F64.div (F64.round (F64.mul v (F64.ofDecimal 100 1))) (F64.ofDecimal 100 1)

/-! ## Sample inputs -/

/-- The table that upper-cases the ASCII letters and nothing else. It agrees with
every table on the strings of the sample inputs, which are ASCII, and is the one
the functions are run with on them. -/
instance asciiUpperCase : UpperCase :=
  have facts : ∀ c : Char, asciiUpperRune (asciiUpperRune c) = asciiUpperRune c ∧
      isSpace (asciiUpperRune c) = isSpace c := by
    intro c
    by_cases h : 97 ≤ c.toNat ∧ c.toNat ≤ 122
    · have hc : c = Char.ofNat c.toNat := (Char.ofNat_toNat c).symm
      obtain ⟨h1, h2⟩ := h
      generalize c.toNat = n at hc h1 h2
      subst hc
      interval_cases n <;> decide
    · have hu : asciiUpperRune c = c := by simp [asciiUpperRune, h]
      rw [hu, hu]
      exact ⟨rfl, rfl⟩
  { up := asciiUpperRune
    ascii := fun _ _ => rfl
    idem := fun c => (facts c).1
    space := fun c => (facts c).2 }

/-- The mapping of `acc_expenses` in the registry. -/
def sampleMapping : FieldMapping :=
  { MainCode := "main_office", SubCode := "sub_office", SiteCode := "site_code",
    IDColumn := "id",
    AmountSets := [
      ⟨"amount", "amount_usdt", "amount_cny"⟩,
      ⟨"converted_amount", "converted_amount_usdt", "converted_amount_cny"⟩] }

def sampleAmount : AmountFieldSet := ⟨"amount", "amount_usdt", "amount_cny"⟩

def sampleConverted : AmountFieldSet :=
  ⟨"converted_amount", "converted_amount_usdt", "converted_amount_cny"⟩

def sampleOffice : officeInfo :=
  { MainCode := "M1", MainOffice := "Main One", SubCode := "SB1", SubOffice := "Sub One",
    SiteCode := "S1", Site := "S1" }

def sampleSiteMap : GoMap String officeInfo := ⟨[("S1", sampleOffice)]⟩

/-- A rate map with the CNY to USDT rate of 9 February 2024, and the EUR to CNY
rate of that day but no EUR to USDT rate. -/
def sampleRates : GoMap rateKey Float :=
  ⟨[(⟨utf8Bytes "2024-02-09", "CNY", "USDT"⟩, 7), (⟨utf8Bytes "2024-02-09", "EUR", "CNY"⟩, 8)]⟩

/-- A record in CNY, site code `S1`, with the amount 5 and no entry for
`converted_amount`. -/
def sampleRecord : recordRow :=
  { ID := 7, Currency := ⟨" cny ", true⟩, EntryDate := ⟨⟨2024, 2, 9⟩, true⟩,
    SubCode := "", SiteCode := "S1", Amounts := ⟨[("amount", ⟨5, true⟩)]⟩ }

/-- A record in EUR, site code `S1`, with the amount 5. -/
def eurRecord : recordRow :=
  { ID := 8, Currency := ⟨"eur", true⟩, EntryDate := ⟨⟨2024, 2, 9⟩, true⟩,
    SubCode := "", SiteCode := "S1", Amounts := ⟨[("amount", ⟨5, true⟩)]⟩ }

/-- A row of `acc_expenses` as the query of `fetchRecordsBatch` returns it,
with SQL `NULL` in the column `amount` (and in the four derived columns) and 5
in `converted_amount`; the amounts are in the order of `amountColList`. -/
def nullAmountRow : fetchedRow :=
  { id := 7, currency := some "CNY", entryDate := some ⟨2024, 2, 9⟩, sub := some "SB1",
    site := some "S1", amounts := [none, none, none, some 5, none, none] }

/-- The record `fetchRecordsBatch` loads from `nullAmountRow`. -/
def nullAmountRecord : recordRow :=
  scanRecord "acc_expenses" sampleMapping (amountColList sampleMapping.AmountSets) nullAmountRow

/-- Two rows of the site query for the site code `S1`, in descending order of
the primary key: the hierarchy inserted last comes first. -/
def duplicateSiteRows : List siteRow :=
  [ ⟨2, "S1", "M2", "Main Two", "SB2", "Sub Two", "Site Two"⟩,
    ⟨1, "S1", "M1", "Main One", "SB1", "Sub One", "Site One"⟩ ]

/-- Two rows of the rate query for the same day and pair of currencies, in
descending order of the primary key. -/
def duplicateRateRows : List rateRow :=
  [ ⟨2, "2024-02-09 00:00:00", " cny", "usdt ", 7⟩,
    ⟨1, "2024-02-09", "CNY", "USDT", 6⟩ ]

/-- Two update rows of one batch, with ids 7 and 8. -/
def sampleRows : List (GoMap String Val) :=
  [ ⟨[("status", .int 1), ("amount_cny", .float 5), ("id", .uint 7)]⟩,
    ⟨[("id", .uint 8), ("status", .int 2), ("recompute_info", .str "rate_reason=x")]⟩ ]

/-- A row of `acc_expenses` as the query of `fetchRecordsBatch` returns it, with
SQL `NULL` in every amount column. -/
def allNullRow : fetchedRow :=
  { id := 11, currency := some "CNY", entryDate := some ⟨2024, 2, 9⟩, sub := some "SB1",
    site := some "S1", amounts := [none, none, none, none, none, none] }

/-- The record `fetchRecordsBatch` loads from `allNullRow`. -/
def allNullRecord : recordRow :=
  scanRecord "acc_expenses" sampleMapping (amountColList sampleMapping.AmountSets) allNullRow

/-- A row of `acc_expenses` as the query of `fetchRecordsBatch` returns it, with
SQL `NULL` in the column `currency` and the amount 5. -/
def nullCurrencyRow : fetchedRow :=
  { id := 12, currency := none, entryDate := some ⟨2024, 2, 9⟩, sub := some "SB1",
    site := some "S1", amounts := [some 5, none, none, none, none, none] }

/-! ## Lemmas on maps -/

theorem lookup_assign {κ ν : Type} [DecidableEq κ] (m : List (κ × ν)) (k k' : κ) (v : ν) :
    lookupEntries (assignEntries m k v) k' = if k = k' then some v else lookupEntries m k' := by
  induction m with
  | nil => simp [assignEntries, lookupEntries]
  | cons p m ih =>
    obtain ⟨a, b⟩ := p
    by_cases h : a = k
    · subst h
      by_cases h2 : a = k' <;> simp [assignEntries, lookupEntries, h2]
    · by_cases h2 : k = k'
      · subst h2
        simp [assignEntries, lookupEntries, h, ih]
      · by_cases h3 : a = k'
        · subst h3
          simp [assignEntries, lookupEntries, h, h2]
        · simp [assignEntries, lookupEntries, h, h2, h3, ih]

theorem GoMap.get_set {κ ν : Type} [DecidableEq κ] (m : GoMap κ ν) (k k' : κ) (v : ν) :
    (m.set k v).get k' = if k = k' then some v else m.get k' :=
  lookup_assign m.entries k k' v

theorem GoMap.get_set_self {κ ν : Type} [DecidableEq κ] (m : GoMap κ ν) (k : κ) (v : ν) :
    (m.set k v).get k = some v := by
  simp [GoMap.get_set]

theorem GoMap.get_set_ne {κ ν : Type} [DecidableEq κ] (m : GoMap κ ν) {k k' : κ} (v : ν)
    (h : k ≠ k') : (m.set k v).get k' = m.get k' := by
  simp [GoMap.get_set, h]

theorem GoMap.get_empty {κ ν : Type} [DecidableEq κ] (k : κ) :
    (GoMap.empty : GoMap κ ν).get k = none := rfl

theorem assign_length_pos {κ ν : Type} [DecidableEq κ] (m : List (κ × ν)) (k : κ) (v : ν) :
    0 < (assignEntries m k v).length := by
  cases m with
  | nil => simp [assignEntries]
  | cons p m =>
    obtain ⟨a, b⟩ := p
    by_cases h : a = k <;> simp [assignEntries, h]

theorem GoMap.len_set_pos {κ ν : Type} [DecidableEq κ] (m : GoMap κ ν) (k : κ) (v : ν) :
    0 < (m.set k v).len :=
  assign_length_pos m.entries k v

/-! ## The loop over the amount-field-sets -/

theorem stepSet_noBase [UpperCase] (rec : recordRow) (rateMap : GoMap rateKey Float) (table : String)
    (st : LoopState) (set : AmountFieldSet) (hb : rec.Amounts.get set.Base = none) :
    stepSet rec rateMap table st set = st := by
  simp [stepSet, hb]

theorem stepSet_channel [UpperCase] (rec : recordRow) (rateMap : GoMap rateKey Float)
    (st : LoopState) (set : AmountFieldSet) :
    stepSet rec rateMap "acc_channel_info" st set = st := by
  unfold stepSet
  cases rec.Amounts.get set.Base <;> simp

theorem stepSet_invalid [UpperCase] (rec : recordRow) (rateMap : GoMap rateKey Float) (table : String)
    (st : LoopState) (set : AmountFieldSet) (bv : NullFloat64)
    (hb : rec.Amounts.get set.Base = some bv) (ht : table ≠ "acc_channel_info")
    (hv : rec.Currency.Valid = false ∨ rec.EntryDate.Valid = false) :
    stepSet rec rateMap table st set =
      { st with
        allOK := false
        rateReason :=
          if rec.EntryDate.Valid = false then
            appendReason (if rec.Currency.Valid = false then
              appendReason st.rateReason "currency NULL" else st.rateReason) "entry_date NULL"
          else if rec.Currency.Valid = false then
            appendReason st.rateReason "currency NULL" else st.rateReason } := by
  rcases hv with hv | hv <;> simp [stepSet, hb, ht, hv]

theorem stepSet_converted [UpperCase] (rec : recordRow) (rateMap : GoMap rateKey Float) (table : String)
    (st : LoopState) (set : AmountFieldSet) (bv : NullFloat64) (cny usdt : Float)
    (hb : rec.Amounts.get set.Base = some bv) (ht : table ≠ "acc_channel_info")
    (hcur : rec.Currency.Valid = true) (hdate : rec.EntryDate.Valid = true)
    (hc : convertAmount rateMap (normCode rec.Currency.Str) rec.EntryDate.Time bv.Float64 =
      .ok (cny, usdt)) :
    stepSet rec rateMap table st set =
      { st with
        update := (st.update.set set.Cny (.float cny)).set set.Usdt (.float usdt)
        convertedCount := st.convertedCount + 1 } := by
  simp [stepSet, hb, ht, hcur, hdate, hc]

theorem stepSet_failed [UpperCase] (rec : recordRow) (rateMap : GoMap rateKey Float) (table : String)
    (st : LoopState) (set : AmountFieldSet) (bv : NullFloat64) (e : String)
    (hb : rec.Amounts.get set.Base = some bv) (ht : table ≠ "acc_channel_info")
    (hcur : rec.Currency.Valid = true) (hdate : rec.EntryDate.Valid = true)
    (hc : convertAmount rateMap (normCode rec.Currency.Str) rec.EntryDate.Time bv.Float64 =
      .error e) :
    stepSet rec rateMap table st set =
      { st with allOK := false, rateReason := appendReason st.rateReason e } := by
  simp [stepSet, hb, ht, hcur, hdate, hc]

theorem stepSet_allOK [UpperCase] (rec : recordRow) (rateMap : GoMap rateKey Float) (table : String)
    (set : AmountFieldSet) :
    (SetGood rec rateMap table set ∧
        ∀ st, (stepSet rec rateMap table st set).allOK = st.allOK) ∨
    (¬ SetGood rec rateMap table set ∧
        ∀ st, (stepSet rec rateMap table st set).allOK = false) := by
  have hbad : (∀ st, (stepSet rec rateMap table st set).allOK = false) →
      ¬ ConvertedOK rec rateMap table set := by
    rintro h ⟨cny, usdt, hc⟩
    have h1 := h ⟨true, "", GoMap.empty, 0⟩
    rw [hc] at h1
    simp at h1
  cases hb : rec.Amounts.get set.Base with
  | none =>
    left
    exact ⟨Or.inr (Or.inl hb), fun st => by rw [stepSet_noBase _ _ _ _ _ hb]⟩
  | some bv =>
    have hnb : ¬ NoBaseEntry rec set := by simp [NoBaseEntry, hb]
    by_cases ht : table = "acc_channel_info"
    · left
      subst ht
      exact ⟨Or.inr (Or.inr rfl), fun st => by rw [stepSet_channel]⟩
    · have hfail : (∀ st, (stepSet rec rateMap table st set).allOK = false) →
          ¬ SetGood rec rateMap table set := by
        rintro hall (h | h | h)
        · exact hbad hall h
        · exact hnb h
        · exact ht h
      by_cases hcur : rec.Currency.Valid = true
      · by_cases hdate : rec.EntryDate.Valid = true
        · cases hc : convertAmount rateMap (normCode rec.Currency.Str) rec.EntryDate.Time
              bv.Float64 with
          | ok p =>
            left
            obtain ⟨cny, usdt⟩ := p
            exact ⟨Or.inl ⟨cny, usdt, fun st =>
                stepSet_converted rec rateMap table st set bv cny usdt hb ht hcur hdate hc⟩,
              fun st => by
                rw [stepSet_converted rec rateMap table st set bv cny usdt hb ht hcur hdate hc]⟩
          | error e =>
            right
            have hall : ∀ st, (stepSet rec rateMap table st set).allOK = false := fun st => by
              rw [stepSet_failed rec rateMap table st set bv e hb ht hcur hdate hc]
            exact ⟨hfail hall, hall⟩
        · right
          have hall : ∀ st, (stepSet rec rateMap table st set).allOK = false := fun st => by
            rw [stepSet_invalid rec rateMap table st set bv hb ht (Or.inr (by simpa using hdate))]
          exact ⟨hfail hall, hall⟩
      · right
        have hall : ∀ st, (stepSet rec rateMap table st set).allOK = false := fun st => by
          rw [stepSet_invalid rec rateMap table st set bv hb ht (Or.inl (by simpa using hcur))]
        exact ⟨hfail hall, hall⟩

theorem foldl_stepSet_allOK [UpperCase] (rec : recordRow) (rateMap : GoMap rateKey Float) (table : String)
    (sets : List AmountFieldSet) (st : LoopState) :
    (sets.foldl (stepSet rec rateMap table) st).allOK = true ↔
      st.allOK = true ∧ ∀ set ∈ sets, SetGood rec rateMap table set := by
  induction sets generalizing st with
  | nil => simp
  | cons a l ih =>
    rw [List.foldl_cons, ih]
    rcases stepSet_allOK rec rateMap table a with ⟨hg, h⟩ | ⟨hg, h⟩
    · rw [h]
      simp [hg]
    · rw [h]
      simp [hg]

theorem status_of_computeUpdateCached [UpperCase] (mapping : FieldMapping) (sets : List AmountFieldSet)
    (rec : recordRow) (siteMap subMap : GoMap String officeInfo)
    (rateMap : GoMap rateKey Float) (table : String) :
    statusOf (computeUpdateCached mapping sets rec siteMap subMap rateMap table).1 =
      some (.int (if (convertSets rec rateMap table
        (resolveOfficeCached mapping rec siteMap subMap).2 sets).allOK then 1 else 2)) := by
  unfold computeUpdateCached statusOf
  simp only []
  split <;> rename_i h <;> simp [h, GoMap.get_set]

/-! ## Status aggregation -/

/-- The status `computeUpdateCached` sets: 1 exactly when office resolution
returned no failure reason and every amount-field-set was converted successfully
(its CNY and USDT columns were written), has no entry under its base column, or
the table is `acc_channel_info`; 2 in every other case. -/
theorem computeUpdateCached_status_iff [UpperCase] (mapping : FieldMapping) (sets : List AmountFieldSet)
    (rec : recordRow) (siteMap subMap : GoMap String officeInfo)
    (rateMap : GoMap rateKey Float) (table : String) :
    (statusOf (computeUpdateCached mapping sets rec siteMap subMap rateMap table).1 =
        some (.int 1) ↔ FullyResolved mapping sets rec siteMap subMap rateMap table) ∧
    (statusOf (computeUpdateCached mapping sets rec siteMap subMap rateMap table).1 =
        some (.int 2) ↔ ¬ FullyResolved mapping sets rec siteMap subMap rateMap table) := by
  have hiff : (convertSets rec rateMap table
      (resolveOfficeCached mapping rec siteMap subMap).2 sets).allOK = true ↔
      FullyResolved mapping sets rec siteMap subMap rateMap table := by
    unfold convertSets
    rw [foldl_stepSet_allOK]
    simp [FullyResolved, SetGood]
  rw [status_of_computeUpdateCached]
  by_cases h : (convertSets rec rateMap table
      (resolveOfficeCached mapping rec siteMap subMap).2 sets).allOK = true
  · have hr := hiff.mp h
    rw [if_pos h]
    exact ⟨⟨fun _ => hr, fun _ => rfl⟩, ⟨fun h2 => by simp at h2, fun h2 => absurd hr h2⟩⟩
  · have hr : ¬ FullyResolved mapping sets rec siteMap subMap rateMap table :=
      fun hr => h (hiff.mpr hr)
    rw [if_neg h]
    exact ⟨⟨fun h2 => by simp at h2, fun h2 => absurd h2 hr⟩, ⟨fun _ => hr, fun _ => rfl⟩⟩

/-! ## Lemmas on strings -/

theorem toUpperRune_facts [UpperCase] (c : Char) :
    toUpperRune (toUpperRune c) = toUpperRune c ∧ isSpace (toUpperRune c) = isSpace c :=
  ⟨UpperCase.idem c, UpperCase.space c⟩

/-- White space trimmed off both ends of a list of runes. -/
theorem trim_list_idem (l : List Char) :
    ((((l.dropWhile isSpace).reverse.dropWhile isSpace).reverse.dropWhile isSpace).reverse.dropWhile
      isSpace).reverse = ((l.dropWhile isSpace).reverse.dropWhile isSpace).reverse := by
  have e : ∀ a : List Char, (a.reverse.dropWhile isSpace).reverse = a.rdropWhile isSpace :=
    fun a => rfl
  rw [e, e]
  have hpre : (l.dropWhile isSpace).rdropWhile isSpace <+: l.dropWhile isSpace :=
    List.rdropWhile_prefix _ _
  have h1 : ((l.dropWhile isSpace).rdropWhile isSpace).dropWhile isSpace =
      (l.dropWhile isSpace).rdropWhile isSpace := by
    obtain ⟨t, ht⟩ := hpre
    have h0 := List.dropWhile_get_zero_not isSpace l
    revert ht h0
    generalize (l.dropWhile isSpace).rdropWhile isSpace = b
    generalize l.dropWhile isSpace = a
    intro ht h0
    cases b with
    | nil => rfl
    | cons x b =>
      subst ht
      have hx := h0 (by simp)
      simp only [List.cons_append, List.get_eq_getElem, List.getElem_cons_zero] at hx
      simp [List.dropWhile_cons, hx]
  rw [h1, List.rdropWhile_idempotent]

theorem dropWhile_map_upper [UpperCase] (l : List Char) :
    (l.map toUpperRune).dropWhile isSpace = (l.dropWhile isSpace).map toUpperRune := by
  induction l with
  | nil => rfl
  | cons a l ih =>
    simp only [List.map_cons, List.dropWhile_cons, (toUpperRune_facts a).2]
    split
    · exact ih
    · rfl

theorem trimSpace_toUpper [UpperCase] (s : String) : trimSpace (toUpper s) = toUpper (trimSpace s) := by
  simp only [trimSpace, toUpper, dropWhile_map_upper, ← List.map_reverse]

theorem normCode_idem [UpperCase] (s : String) : normCode (normCode s) = normCode s := by
  unfold normCode
  rw [trimSpace_toUpper]
  have h1 : trimSpace (trimSpace s) = trimSpace s := by
    simp only [trimSpace, trim_list_idem]
  have h2 : ∀ t : String, toUpper (toUpper t) = toUpper t := by
    intro t
    simp only [toUpper, List.map_map]
    congr 1
    apply List.map_congr_left
    intro c _
    exact (toUpperRune_facts c).1
  rw [h1, h2]

theorem toUpperRune_ascii_upper [UpperCase] (c : Char) (h : 65 ≤ c.toNat ∧ c.toNat ≤ 90) :
    toUpperRune c = c := by
  unfold toUpperRune
  rw [UpperCase.ascii c (by omega)]
  unfold asciiUpperRune
  rw [if_neg (by omega)]

theorem normCode_CNY [UpperCase] : normCode "CNY" = "CNY" := by
  have ht : trimSpace "CNY" = "CNY" := by decide
  unfold normCode
  rw [ht]
  show String.mk (List.map toUpperRune (String.data "CNY")) = "CNY"
  have hd : String.data "CNY" = [Char.ofNat 67, Char.ofNat 78, Char.ofNat 89] := by decide
  rw [hd]
  simp only [List.map_cons, List.map_nil,
    toUpperRune_ascii_upper (Char.ofNat 67) (by decide),
    toUpperRune_ascii_upper (Char.ofNat 78) (by decide),
    toUpperRune_ascii_upper (Char.ofNat 89) (by decide)]

theorem normCode_USDT [UpperCase] : normCode "USDT" = "USDT" := by
  have ht : trimSpace "USDT" = "USDT" := by decide
  unfold normCode
  rw [ht]
  show String.mk (List.map toUpperRune (String.data "USDT")) = "USDT"
  have hd : String.data "USDT" =
      [Char.ofNat 85, Char.ofNat 83, Char.ofNat 68, Char.ofNat 84] := by decide
  rw [hd]
  simp only [List.map_cons, List.map_nil,
    toUpperRune_ascii_upper (Char.ofNat 85) (by decide),
    toUpperRune_ascii_upper (Char.ofNat 83) (by decide),
    toUpperRune_ascii_upper (Char.ofNat 68) (by decide),
    toUpperRune_ascii_upper (Char.ofNat 84) (by decide)]

theorem normCode_CNY_ne_USDT [UpperCase] : normCode "CNY" ≠ normCode "USDT" := by
  rw [normCode_CNY, normCode_USDT]
  decide

theorem normCode_USDT_ne_CNY [UpperCase] : normCode "USDT" ≠ normCode "CNY" := by
  rw [normCode_CNY, normCode_USDT]
  decide

/-! ## Upper-casing tables agree on ASCII text -/

theorem toUpper_ascii [UpperCase] (s : String) (h : IsAscii s) :
    toUpper s = @toUpper asciiUpperCase s := by
  unfold toUpper
  congr 1
  apply List.map_congr_left
  intro c hc
  exact UpperCase.ascii c (h c hc)

theorem isAscii_trimSpace (s : String) (h : IsAscii s) : IsAscii (trimSpace s) := by
  intro c hc
  apply h c
  have h1 : c ∈ ((s.data.dropWhile isSpace).reverse.dropWhile isSpace) := by
    simpa [trimSpace] using hc
  have h2 := (List.dropWhile_sublist isSpace).subset h1
  rw [List.mem_reverse] at h2
  exact (List.dropWhile_sublist isSpace).subset h2

theorem asciiUpperRune_lt (c : Char) (h : c.toNat < 128) : (asciiUpperRune c).toNat < 128 := by
  by_cases hr : 97 ≤ c.toNat ∧ c.toNat ≤ 122
  · have hc : c = Char.ofNat c.toNat := (Char.ofNat_toNat c).symm
    obtain ⟨h1, h2⟩ := hr
    generalize c.toNat = n at hc h1 h2
    subst hc
    interval_cases n <;> decide
  · have hu : asciiUpperRune c = c := by simp [asciiUpperRune, hr]
    rw [hu]
    exact h

theorem normCode_ascii [UpperCase] (s : String) (h : IsAscii s) :
    normCode s = @normCode asciiUpperCase s :=
  toUpper_ascii _ (isAscii_trimSpace s h)

theorem isAscii_normCode (s : String) (h : IsAscii s) : IsAscii (@normCode asciiUpperCase s) := by
  intro c hc
  have hc' : c ∈ (trimSpace s).data.map asciiUpperRune := hc
  obtain ⟨d, hd, rfl⟩ := List.mem_map.mp hc'
  exact asciiUpperRune_lt d (isAscii_trimSpace s h d hd)

theorem lookupRateCached_ascii [UpperCase] (rateMap : GoMap rateKey Float) (date : Time)
    (src dst : String) (hs : IsAscii src) (hd : IsAscii dst) :
    lookupRateCached rateMap date src dst =
      @lookupRateCached asciiUpperCase rateMap date src dst := by
  simp only [lookupRateCached, normCode_ascii src hs, normCode_ascii dst hd]

theorem convertAmount_ascii [UpperCase] (rateMap : GoMap rateKey Float) (cur : String)
    (dt : Time) (base : Float) (h : IsAscii cur) :
    convertAmount rateMap cur dt base = @convertAmount asciiUpperCase rateMap cur dt base := by
  have hc : IsAscii "CNY" := by unfold IsAscii; decide
  have hu : IsAscii "USDT" := by unfold IsAscii; decide
  simp only [convertAmount, lookupRateCached_ascii rateMap dt "CNY" "USDT" hc hu,
    lookupRateCached_ascii rateMap dt "USDT" "CNY" hu hc,
    lookupRateCached_ascii rateMap dt cur "CNY" h hc,
    lookupRateCached_ascii rateMap dt cur "USDT" h hu]

theorem stepSet_ascii [UpperCase] (rec : recordRow) (rateMap : GoMap rateKey Float)
    (table : String) (h : IsAscii rec.Currency.Str) :
    stepSet rec rateMap table = @stepSet asciiUpperCase rec rateMap table := by
  funext st set
  simp only [stepSet, normCode_ascii _ h,
    convertAmount_ascii rateMap _ rec.EntryDate.Time _ (isAscii_normCode _ h)]

/-- On a record whose currency is ASCII text, `computeUpdateCached` returns the
same result under every upper-casing table. -/
theorem computeUpdateCached_ascii [UpperCase] (mapping : FieldMapping)
    (sets : List AmountFieldSet) (rec : recordRow) (siteMap subMap : GoMap String officeInfo)
    (rateMap : GoMap rateKey Float) (table : String) (h : IsAscii rec.Currency.Str) :
    computeUpdateCached mapping sets rec siteMap subMap rateMap table =
      @computeUpdateCached asciiUpperCase mapping sets rec siteMap subMap rateMap table := by
  simp only [computeUpdateCached, convertSets, stepSet_ascii rec rateMap table h]

/-! ## Which columns an assignment can reach -/

theorem convertSets_append [UpperCase] (rec : recordRow) (rateMap : GoMap rateKey Float) (table : String)
    (officeReason : String) (pre post : List AmountFieldSet) :
    convertSets rec rateMap table officeReason (pre ++ post) =
      post.foldl (stepSet rec rateMap table) (convertSets rec rateMap table officeReason pre) := by
  simp [convertSets, List.foldl_append]

/-- An iteration either leaves the update set alone or assigns the set's two
columns. -/
theorem stepSet_update [UpperCase] (rec : recordRow) (rateMap : GoMap rateKey Float) (table : String)
    (st : LoopState) (set : AmountFieldSet) :
    (stepSet rec rateMap table st set).update = st.update ∨
    ∃ cny usdt, (stepSet rec rateMap table st set).update =
      (st.update.set set.Cny (.float cny)).set set.Usdt (.float usdt) := by
  unfold stepSet
  split
  · exact Or.inl rfl
  · split
    · exact Or.inl rfl
    · split
      · exact Or.inl rfl
      · split
        · exact Or.inr ⟨_, _, rfl⟩
        · exact Or.inl rfl

theorem stepSet_get_other [UpperCase] (rec : recordRow) (rateMap : GoMap rateKey Float) (table : String)
    (st : LoopState) (set : AmountFieldSet) (c : String) (h1 : set.Cny ≠ c) (h2 : set.Usdt ≠ c) :
    (stepSet rec rateMap table st set).update.get c = st.update.get c := by
  rcases stepSet_update rec rateMap table st set with h | ⟨cny, usdt, h⟩
  · rw [h]
  · rw [h, GoMap.get_set_ne _ _ h2, GoMap.get_set_ne _ _ h1]

theorem foldl_stepSet_get_other [UpperCase] (rec : recordRow) (rateMap : GoMap rateKey Float)
    (table : String) (post : List AmountFieldSet) (st : LoopState) (c : String)
    (h : ∀ s ∈ post, s.Cny ≠ c ∧ s.Usdt ≠ c) :
    (post.foldl (stepSet rec rateMap table) st).update.get c = st.update.get c := by
  induction post generalizing st with
  | nil => rfl
  | cons a l ih =>
    rw [List.foldl_cons, ih _ (fun s hs => h s (List.mem_cons_of_mem _ hs))]
    exact stepSet_get_other rec rateMap table st a c (h a (List.mem_cons_self _ _)).1
      (h a (List.mem_cons_self _ _)).2

theorem fillOffice_get_other (mapping : FieldMapping) (office : officeInfo)
    (update : GoMap String Val) (c : String)
    (h : c ∉ [mapping.MainCode, mapping.SubCode, mapping.SiteCode, "main_office", "sub_office",
      "site"]) :
    (fillOffice mapping office update).get c = update.get c := by
  simp only [List.mem_cons, List.mem_singleton, not_or, List.not_mem_nil, not_false_eq_true,
    and_true] at h
  obtain ⟨h1, h2, h3, h4, h5, h6⟩ := h
  unfold fillOffice
  simp only []
  repeat' split
  all_goals simp [GoMap.get_set, Ne.symm h1, Ne.symm h2, Ne.symm h3, Ne.symm h4, Ne.symm h5,
    Ne.symm h6]

theorem computeUpdateCached_get_other [UpperCase] (mapping : FieldMapping) (sets : List AmountFieldSet)
    (rec : recordRow) (siteMap subMap : GoMap String officeInfo)
    (rateMap : GoMap rateKey Float) (table : String) (c : String)
    (h1 : c ≠ "status") (h2 : c ≠ "recompute_info") :
    (computeUpdateCached mapping sets rec siteMap subMap rateMap table).1.get c =
      (fillOffice mapping (resolveOfficeCached mapping rec siteMap subMap).1
        (convertSets rec rateMap table (resolveOfficeCached mapping rec siteMap subMap).2
          sets).update).get c := by
  unfold computeUpdateCached
  simp only []
  split <;> simp [GoMap.get_set, Ne.symm h1, Ne.symm h2]

theorem not_mem_laterColumns (mapping : FieldMapping) (post : List AmountFieldSet) (c : String)
    (h : c ∉ laterColumns mapping post) :
    (∀ s ∈ post, s.Cny ≠ c ∧ s.Usdt ≠ c) ∧
    c ∉ [mapping.MainCode, mapping.SubCode, mapping.SiteCode, "main_office", "sub_office",
      "site"] ∧ c ≠ "status" ∧ c ≠ "recompute_info" := by
  induction post with
  | nil =>
    simp only [laterColumns, List.mem_cons, List.mem_singleton, not_or, List.not_mem_nil,
      or_false] at h
    obtain ⟨h1, h2, h3, h4, h5, h6, h7, h8⟩ := h
    refine ⟨by simp, ?_, h7, h8⟩
    simp [h1, h2, h3, h4, h5, h6]
  | cons a l ih =>
    simp only [laterColumns, List.mem_cons, not_or] at h
    obtain ⟨h1, h2, h3⟩ := h
    obtain ⟨i1, i2⟩ := ih h3
    refine ⟨?_, i2⟩
    intro s hs
    rcases List.mem_cons.mp hs with rfl | hs
    · exact ⟨Ne.symm h1, Ne.symm h2⟩
    · exact i1 s hs

/-! ## Currency conversion -/

theorem lookupRateCached_found [UpperCase] (rateMap : GoMap rateKey Float) (date : Time) (src dst : String)
    (r : Float) (hne : normCode src ≠ normCode dst)
    (h : rateMap.get ⟨utf8Bytes (formatDate date), normCode src, normCode dst⟩ = some r) :
    lookupRateCached rateMap date src dst = .ok r := by
  simp [lookupRateCached, hne, h]

theorem lookupRateCached_missing [UpperCase] (rateMap : GoMap rateKey Float) (date : Time) (src dst : String)
    (hne : normCode src ≠ normCode dst)
    (h : rateMap.get ⟨utf8Bytes (formatDate date), normCode src, normCode dst⟩ = none) :
    lookupRateCached rateMap date src dst =
      .error ("lookupRate: no rate for " ++ formatDate date ++ " " ++ normCode src ++ "->" ++
        normCode dst) := by
  simp [lookupRateCached, hne, h]

theorem convertAmount_CNY [UpperCase] (rateMap : GoMap rateKey Float) (dt : Time) (base r : Float)
    (h : rateMap.get ⟨utf8Bytes (formatDate dt), "CNY", "USDT"⟩ = some r) :
    convertAmount rateMap "CNY" dt base = .ok (base, round2 (base * r)) := by
  have hl := lookupRateCached_found rateMap dt "CNY" "USDT" r normCode_CNY_ne_USDT
    (by rw [normCode_CNY, normCode_USDT]; exact h)
  simp [convertAmount, hl]

theorem convertAmount_USDT [UpperCase] (rateMap : GoMap rateKey Float) (dt : Time) (base r : Float)
    (h : rateMap.get ⟨utf8Bytes (formatDate dt), "USDT", "CNY"⟩ = some r) :
    convertAmount rateMap "USDT" dt base = .ok (round2 (base * r), base) := by
  have hl := lookupRateCached_found rateMap dt "USDT" "CNY" r normCode_USDT_ne_CNY
    (by rw [normCode_CNY, normCode_USDT]; exact h)
  simp [convertAmount, hl]

theorem convertAmount_other [UpperCase] (rateMap : GoMap rateKey Float) (dt : Time) (raw : String)
    (base rCNY rUSDT : Float) (h1 : normCode raw ≠ "CNY") (h2 : normCode raw ≠ "USDT")
    (hc : rateMap.get ⟨utf8Bytes (formatDate dt), normCode raw, "CNY"⟩ = some rCNY)
    (hu : rateMap.get ⟨utf8Bytes (formatDate dt), normCode raw, "USDT"⟩ = some rUSDT) :
    convertAmount rateMap (normCode raw) dt base =
      .ok (round2 (base * rCNY), round2 (base * rUSDT)) := by
  have hl1 := lookupRateCached_found rateMap dt (normCode raw) "CNY" rCNY
    (by rw [normCode_idem, normCode_CNY]; exact h1)
    (by rw [normCode_idem, normCode_CNY]; exact hc)
  have hl2 := lookupRateCached_found rateMap dt (normCode raw) "USDT" rUSDT
    (by rw [normCode_idem, normCode_USDT]; exact h2)
    (by rw [normCode_idem, normCode_USDT]; exact hu)
  simp [convertAmount, h1, h2, hl1, hl2]

theorem writesAmounts_of_convertAmount [UpperCase] (mapping : FieldMapping) (pre : List AmountFieldSet)
    (set : AmountFieldSet) (post : List AmountFieldSet) (rec : recordRow)
    (siteMap subMap : GoMap String officeInfo) (rateMap : GoMap rateKey Float) (table : String)
    (bv : NullFloat64) (cny usdt : Float)
    (hb : rec.Amounts.get set.Base = some bv) (ht : table ≠ "acc_channel_info")
    (hcur : rec.Currency.Valid = true) (hdate : rec.EntryDate.Valid = true)
    (hc : convertAmount rateMap (normCode rec.Currency.Str) rec.EntryDate.Time bv.Float64 =
      .ok (cny, usdt)) :
    WritesAmounts mapping pre set post rec siteMap subMap rateMap table cny usdt := by
  have hstep := fun st => stepSet_converted rec rateMap table st set bv cny usdt hb ht hcur hdate hc
  have hfinal : ∀ c, c ∉ laterColumns mapping post →
      (computeUpdateCached mapping (pre ++ set :: post) rec siteMap subMap rateMap table).1.get c
        = (((convertSets rec rateMap table (resolveOfficeCached mapping rec siteMap subMap).2
          pre).update.set set.Cny (.float cny)).set set.Usdt (.float usdt)).get c := by
    intro c hcol
    obtain ⟨h1, h2, h3, h4⟩ := not_mem_laterColumns mapping post c hcol
    rw [computeUpdateCached_get_other _ _ _ _ _ _ _ _ h3 h4, fillOffice_get_other _ _ _ _ h2,
      convertSets_append, List.foldl_cons, foldl_stepSet_get_other _ _ _ _ _ _ h1, hstep]
  refine ⟨?_, ?_, ?_⟩
  · rw [convertSets_append, List.foldl_cons, List.foldl_nil, hstep]
  · intro h
    rw [hfinal _ h, GoMap.get_set_self]
  · intro hne h
    rw [hfinal _ h, GoMap.get_set_ne _ _ (Ne.symm hne), GoMap.get_set_self]

/-- C2: for a record of an amount-bearing table with a non-null currency and
entry date and an amount-field-set with a base value entry, when the required
rates are in the rate map under (entry date as calendar day, from, to):
for the trimmed, upper-cased currency `CNY` the function writes the base
unchanged under the CNY column and `round2 (base * rate(CNY->USDT))` under the
USDT column; for `USDT` it writes `round2 (base * rate(USDT->CNY))` under the CNY
column and the base unchanged under the USDT column; for any other currency it
writes `round2 (base * rate(currency->CNY))` and
`round2 (base * rate(currency->USDT))`. -/
theorem computeUpdateCached_converted_values [UpperCase] (mapping : FieldMapping)
    (pre : List AmountFieldSet) (set : AmountFieldSet) (post : List AmountFieldSet)
    (rec : recordRow) (siteMap subMap : GoMap String officeInfo)
    (rateMap : GoMap rateKey Float) (table : String) (bv : NullFloat64)
    (ht : table ≠ "acc_channel_info")
    (hcur : rec.Currency.Valid = true) (hdate : rec.EntryDate.Valid = true)
    (hb : rec.Amounts.get set.Base = some bv) :
    (normCode rec.Currency.Str = "CNY" → ∀ r : Float,
      rateMap.get ⟨utf8Bytes (formatDate rec.EntryDate.Time), "CNY", "USDT"⟩ = some r →
      WritesAmounts mapping pre set post rec siteMap subMap rateMap table
        bv.Float64 (round2 (bv.Float64 * r))) ∧
    (normCode rec.Currency.Str = "USDT" → ∀ r : Float,
      rateMap.get ⟨utf8Bytes (formatDate rec.EntryDate.Time), "USDT", "CNY"⟩ = some r →
      WritesAmounts mapping pre set post rec siteMap subMap rateMap table
        (round2 (bv.Float64 * r)) bv.Float64) ∧
    (normCode rec.Currency.Str ≠ "CNY" → normCode rec.Currency.Str ≠ "USDT" →
      ∀ rCNY rUSDT : Float,
      rateMap.get ⟨utf8Bytes (formatDate rec.EntryDate.Time), normCode rec.Currency.Str, "CNY"⟩ =
        some rCNY →
      rateMap.get ⟨utf8Bytes (formatDate rec.EntryDate.Time), normCode rec.Currency.Str, "USDT"⟩ =
        some rUSDT →
      WritesAmounts mapping pre set post rec siteMap subMap rateMap table
        (round2 (bv.Float64 * rCNY)) (round2 (bv.Float64 * rUSDT))) := by
  refine ⟨?_, ?_, ?_⟩
  · intro hc r hr
    apply writesAmounts_of_convertAmount _ _ _ _ _ _ _ _ _ bv _ _ hb ht hcur hdate
    rw [hc]
    exact convertAmount_CNY rateMap _ _ r hr
  · intro hc r hr
    apply writesAmounts_of_convertAmount _ _ _ _ _ _ _ _ _ bv _ _ hb ht hcur hdate
    rw [hc]
    exact convertAmount_USDT rateMap _ _ r hr
  · intro h1 h2 rCNY rUSDT hr1 hr2
    apply writesAmounts_of_convertAmount _ _ _ _ _ _ _ _ _ bv _ _ hb ht hcur hdate
    exact convertAmount_other rateMap _ _ _ rCNY rUSDT h1 h2 hr1 hr2

theorem computeUpdateCached_converted_values_witness :
    WritesAmounts sampleMapping [] sampleAmount [sampleConverted] sampleRecord sampleSiteMap
      GoMap.empty sampleRates "acc_expenses" 5 (round2 (5 * 7)) :=
  (computeUpdateCached_converted_values sampleMapping [] sampleAmount [sampleConverted]
    sampleRecord sampleSiteMap GoMap.empty sampleRates "acc_expenses" ⟨5, true⟩
    (by decide) rfl rfl rfl).1 (by decide) 7 rfl

/-! ## Null amounts -/

/-- C3, on the record loaded from a row whose `amount` is SQL `NULL`: the loaded
record has an entry for `amount` (the zero value with `Valid = false`), so the
set is not skipped; `computeUpdateCached` converts it as the number 0 and the
update set holds `amount_cny = 0` and `amount_usdt = round2 (0 * 7)` next to the
columns of `converted_amount`, with status 1. -/
theorem null_base_is_converted [UpperCase] :
    nullAmountRecord.Amounts.get "amount" = some ⟨0, false⟩ ∧
    nullAmountRecord.Amounts.get "converted_amount" = some ⟨5, true⟩ ∧
    (computeUpdateCached sampleMapping sampleMapping.AmountSets nullAmountRecord sampleSiteMap
      GoMap.empty sampleRates "acc_expenses").1.get "amount_cny" = some (.float 0) ∧
    (computeUpdateCached sampleMapping sampleMapping.AmountSets nullAmountRecord sampleSiteMap
      GoMap.empty sampleRates "acc_expenses").1.get "amount_usdt" =
        some (.float (round2 (0 * 7))) ∧
    (computeUpdateCached sampleMapping sampleMapping.AmountSets nullAmountRecord sampleSiteMap
      GoMap.empty sampleRates "acc_expenses").1.get "status" = some (.int 1) := by
  have h : IsAscii nullAmountRecord.Currency.Str := by unfold IsAscii; decide
  rw [computeUpdateCached_ascii _ _ _ _ _ _ _ h]
  exact ⟨rfl, rfl, rfl, rfl, rfl⟩

/-- C1, on the record loaded from a row whose amounts are all SQL `NULL`, in
CNY, with a site code that resolves, and an empty rate map: office resolution
returns no failure reason and no amount-field-set has a base value to convert
(the entry under every base column has `Valid = false`), yet
`computeUpdateCached` sets the status 2, with the failed rate lookups of both
sets as the reason. The loop tests only whether `rec.Amounts` has an entry under
the base column, never `baseVal.Valid`, and a loaded record has an entry under
every column of the query. -/
theorem null_base_without_rate_is_pending [UpperCase] :
    (resolveOfficeCached sampleMapping allNullRecord sampleSiteMap GoMap.empty).2 = "" ∧
    (∀ set ∈ sampleMapping.AmountSets, NoBaseValue allNullRecord set) ∧
    statusOf (computeUpdateCached sampleMapping sampleMapping.AmountSets allNullRecord
      sampleSiteMap GoMap.empty GoMap.empty "acc_expenses").1 = some (.int 2) ∧
    (computeUpdateCached sampleMapping sampleMapping.AmountSets allNullRecord
      sampleSiteMap GoMap.empty GoMap.empty "acc_expenses").2 =
      "rate_reason=lookupRate: no rate for 2024-02-09 CNY->USDT; lookupRate: no rate for 2024-02-09 CNY->USDT" := by
  have h : IsAscii allNullRecord.Currency.Str := by unfold IsAscii; decide
  rw [computeUpdateCached_ascii _ _ _ _ _ _ _ h]
  refine ⟨rfl, ?_, rfl, by decide⟩
  intro set hset bv hbv
  have hs : set = sampleAmount ∨ set = sampleConverted := by
    simpa [sampleMapping, sampleAmount, sampleConverted] using hset
  rcases hs with rfl | rfl
  · have e : allNullRecord.Amounts.get sampleAmount.Base = some ⟨0, false⟩ := rfl
    rw [e] at hbv
    injection hbv with hbv
    rw [← hbv]
  · have e : allNullRecord.Amounts.get sampleConverted.Base = some ⟨0, false⟩ := rfl
    rw [e] at hbv
    injection hbv with hbv
    rw [← hbv]

/-! ## Reason strings -/

theorem str_ne_empty_of_append_left (a b : String) (h : a ≠ "") : a ++ b ≠ "" := by
  intro h2
  apply h
  have := congrArg String.length h2
  simp only [String.length_append] at this
  have h0 : a.length = 0 := by
    have : ("" : String).length = 0 := rfl
    omega
  exact String.ext (List.length_eq_zero.mp h0)

theorem str_ne_empty_of_append_right (a b : String) (h : b ≠ "") : a ++ b ≠ "" := by
  intro h2
  apply h
  have := congrArg String.length h2
  simp only [String.length_append] at this
  have h0 : b.length = 0 := by
    have : ("" : String).length = 0 := rfl
    omega
  exact String.ext (List.length_eq_zero.mp h0)

theorem contains_ne_empty (s e : String) (h : Contains s e) (he : e ≠ "") : s ≠ "" := by
  obtain ⟨a, b, rfl⟩ := h
  exact str_ne_empty_of_append_left _ _ (str_ne_empty_of_append_right _ _ he)

theorem appendReason_ne_empty_right (cur add : String) (h : add ≠ "") :
    appendReason cur add ≠ "" := by
  unfold appendReason
  split_ifs with h1
  · exact h
  · exact str_ne_empty_of_append_right _ _ h

theorem appendReason_ne_empty_left (cur add : String) (h : cur ≠ "") :
    appendReason cur add ≠ "" := by
  unfold appendReason
  rw [if_neg h]
  by_cases h1 : add = ""
  · rw [if_pos h1]
    exact h
  · rw [if_neg h1]
    exact str_ne_empty_of_append_left _ _ (str_ne_empty_of_append_left _ _ h)

theorem contains_appendReason_right (cur add : String) : Contains (appendReason cur add) add := by
  unfold appendReason
  split_ifs with h1 h2
  · exact ⟨"", "", by simp⟩
  · subst h2
    exact ⟨cur, "", by simp⟩
  · exact ⟨cur ++ "; ", "", by simp [String.append_assoc]⟩

theorem contains_appendReason_left (cur add e : String) (h : Contains cur e) (he : e ≠ "") :
    Contains (appendReason cur add) e := by
  have hc := contains_ne_empty cur e h he
  unfold appendReason
  rw [if_neg hc]
  by_cases h1 : add = ""
  · rw [if_pos h1]
    exact h
  · rw [if_neg h1]
    obtain ⟨a, b, rfl⟩ := h
    exact ⟨a, b ++ ("; " ++ add), by simp only [String.append_assoc]⟩

/-- Every iteration keeps what the rate reason already holds. -/
theorem stepSet_rateReason_contains [UpperCase] (rec : recordRow) (rateMap : GoMap rateKey Float)
    (table : String) (st : LoopState) (set : AmountFieldSet) (e : String)
    (h : Contains st.rateReason e) (he : e ≠ "") :
    Contains (stepSet rec rateMap table st set).rateReason e := by
  unfold stepSet
  split
  · exact h
  · split
    · exact h
    · split
      · simp only []
        split_ifs
        · exact contains_appendReason_left _ _ _ (contains_appendReason_left _ _ _ h he) he
        · exact contains_appendReason_left _ _ _ h he
        · exact contains_appendReason_left _ _ _ h he
        · exact h
      · split
        · exact h
        · exact contains_appendReason_left _ _ _ h he

theorem foldl_stepSet_rateReason_contains [UpperCase] (rec : recordRow) (rateMap : GoMap rateKey Float)
    (table : String) (post : List AmountFieldSet) (st : LoopState) (e : String)
    (h : Contains st.rateReason e) (he : e ≠ "") :
    Contains (post.foldl (stepSet rec rateMap table) st).rateReason e := by
  induction post generalizing st with
  | nil => exact h
  | cons a l ih =>
    rw [List.foldl_cons]
    exact ih _ (stepSet_rateReason_contains rec rateMap table st a e h he)

theorem foldl_stepSet_allOK_false [UpperCase] (rec : recordRow) (rateMap : GoMap rateKey Float)
    (table : String) (post : List AmountFieldSet) (st : LoopState) (h : st.allOK = false) :
    (post.foldl (stepSet rec rateMap table) st).allOK = false := by
  cases hf : (post.foldl (stepSet rec rateMap table) st).allOK with
  | false => rfl
  | true =>
    have := ((foldl_stepSet_allOK rec rateMap table post st).mp hf).1
    rw [h] at this
    exact absurd this (by simp)

theorem buildReason_rate (officeReason rateReason : String) (h : rateReason ≠ "") :
    ∃ a : String, buildReason officeReason rateReason = a ++ "rate_reason=" ++ rateReason := by
  unfold buildReason
  by_cases ho : officeReason = ""
  · refine ⟨"", ?_⟩
    simp only [ho, h, ne_eq, not_true_eq_false, not_false_eq_true, if_true, if_false,
      List.nil_append, joinStrings, String.empty_append]
  · refine ⟨"office_reason=" ++ officeReason ++ "; ", ?_⟩
    simp only [ho, h, ne_eq, not_false_eq_true, if_true, List.nil_append,
      List.singleton_append, joinStrings, String.append_assoc]

/-! ## Failure of an iteration -/

theorem convertSets_nil [UpperCase] (rec : recordRow) (rateMap : GoMap rateKey Float) (table : String)
    (officeReason : String) :
    (convertSets rec rateMap table officeReason []).update = GoMap.empty := rfl

theorem computeUpdateCached_reason [UpperCase] (mapping : FieldMapping) (sets : List AmountFieldSet)
    (rec : recordRow) (siteMap subMap : GoMap String officeInfo)
    (rateMap : GoMap rateKey Float) (table : String) :
    (computeUpdateCached mapping sets rec siteMap subMap rateMap table).2 =
      buildReason (resolveOfficeCached mapping rec siteMap subMap).2
        (convertSets rec rateMap table (resolveOfficeCached mapping rec siteMap subMap).2
          sets).rateReason := by
  unfold computeUpdateCached
  simp only []
  split <;> rfl

theorem lookupRateCached_error_ne_empty [UpperCase] (rateMap : GoMap rateKey Float) (date : Time)
    (src dst e : String) (h : lookupRateCached rateMap date src dst = .error e) : e ≠ "" := by
  unfold lookupRateCached at h
  simp only [] at h
  split_ifs at h
  split at h
  · cases h
  · injection h with h
    subst h
    simp only [String.append_assoc]
    exact str_ne_empty_of_append_left _ _ (by decide)

theorem convertAmount_error_ne_empty [UpperCase] (rateMap : GoMap rateKey Float) (cur : String) (dt : Time)
    (base : Float) (e : String) (h : convertAmount rateMap cur dt base = .error e) : e ≠ "" := by
  unfold convertAmount at h
  split_ifs at h
  · split at h
    · rename_i e1 h1
      injection h with h
      subst h
      exact lookupRateCached_error_ne_empty _ _ _ _ _ h1
    · cases h
  · split at h
    · rename_i e1 h1
      injection h with h
      subst h
      exact lookupRateCached_error_ne_empty _ _ _ _ _ h1
    · cases h
  · split at h
    · rename_i e1 h1
      injection h with h
      subst h
      exact lookupRateCached_error_ne_empty _ _ _ _ _ h1
    · rename_i e2 h1 h2
      injection h with h
      subst h
      exact lookupRateCached_error_ne_empty _ _ _ _ _ h2
    · cases h

theorem rateFailure_of_convertAmount [UpperCase] (mapping : FieldMapping) (pre : List AmountFieldSet)
    (set : AmountFieldSet) (post : List AmountFieldSet) (rec : recordRow)
    (siteMap subMap : GoMap String officeInfo) (rateMap : GoMap rateKey Float) (table : String)
    (bv : NullFloat64) (e : String)
    (hb : rec.Amounts.get set.Base = some bv) (ht : table ≠ "acc_channel_info")
    (hcur : rec.Currency.Valid = true) (hdate : rec.EntryDate.Valid = true)
    (hc : convertAmount rateMap (normCode rec.Currency.Str) rec.EntryDate.Time bv.Float64 =
      .error e) :
    RateFailure mapping pre set post rec siteMap subMap rateMap table e := by
  have he : e ≠ "" := convertAmount_error_ne_empty _ _ _ _ _ hc
  have hstep := fun st => stepSet_failed rec rateMap table st set bv e hb ht hcur hdate hc
  have hnone : ∀ c, c ∉ laterColumns mapping (pre ++ post) →
      (computeUpdateCached mapping (pre ++ set :: post) rec siteMap subMap rateMap table).1.get c
        = none := by
    intro c hcol
    obtain ⟨h1, h2, h3, h4⟩ := not_mem_laterColumns mapping (pre ++ post) c hcol
    rw [computeUpdateCached_get_other _ _ _ _ _ _ _ _ h3 h4, fillOffice_get_other _ _ _ _ h2,
      convertSets_append, List.foldl_cons,
      foldl_stepSet_get_other _ _ _ _ _ _ (fun s hs => h1 s (List.mem_append_right _ hs)),
      hstep]
    show (convertSets rec rateMap table _ pre).update.get c = none
    unfold convertSets
    rw [foldl_stepSet_get_other _ _ _ _ _ _ (fun s hs => h1 s (List.mem_append_left _ hs))]
    rfl
  refine ⟨?_, hnone _, hnone _, ?_, ?_⟩
  · rw [convertSets_append, List.foldl_cons, List.foldl_nil, hstep]
  · rw [status_of_computeUpdateCached, convertSets_append, List.foldl_cons,
      foldl_stepSet_allOK_false _ _ _ _ _ (by rw [hstep])]
    rfl
  · rw [computeUpdateCached_reason, convertSets_append, List.foldl_cons]
    have hcont : Contains (post.foldl (stepSet rec rateMap table)
        (stepSet rec rateMap table (convertSets rec rateMap table
          (resolveOfficeCached mapping rec siteMap subMap).2 pre) set)).rateReason e := by
      apply foldl_stepSet_rateReason_contains _ _ _ _ _ _ _ he
      rw [hstep]
      exact contains_appendReason_right _ _
    obtain ⟨a, ha⟩ := buildReason_rate (resolveOfficeCached mapping rec siteMap subMap).2 _
      (contains_ne_empty _ _ hcont he)
    obtain ⟨b, c, hbc⟩ := hcont
    refine ⟨a, b, c, ?_⟩
    rw [ha, hbc]
    simp only [String.append_assoc]

/-! ## Rate failures -/

theorem convertAmount_CNY_missing [UpperCase] (rateMap : GoMap rateKey Float) (dt : Time) (base : Float)
    (h : rateMap.get ⟨utf8Bytes (formatDate dt), "CNY", "USDT"⟩ = none) :
    convertAmount rateMap "CNY" dt base = .error (noRateText (formatDate dt) "CNY" "USDT") := by
  have hl := lookupRateCached_missing rateMap dt "CNY" "USDT" normCode_CNY_ne_USDT
    (by rw [normCode_CNY, normCode_USDT]; exact h)
  rw [normCode_CNY, normCode_USDT] at hl
  simp [convertAmount, hl, noRateText]

theorem convertAmount_USDT_missing [UpperCase] (rateMap : GoMap rateKey Float) (dt : Time) (base : Float)
    (h : rateMap.get ⟨utf8Bytes (formatDate dt), "USDT", "CNY"⟩ = none) :
    convertAmount rateMap "USDT" dt base = .error (noRateText (formatDate dt) "USDT" "CNY") := by
  have hl := lookupRateCached_missing rateMap dt "USDT" "CNY" normCode_USDT_ne_CNY
    (by rw [normCode_CNY, normCode_USDT]; exact h)
  rw [normCode_CNY, normCode_USDT] at hl
  simp [convertAmount, hl, noRateText]

theorem convertAmount_other_missing_CNY [UpperCase] (rateMap : GoMap rateKey Float) (dt : Time)
    (raw : String) (base : Float) (h1 : normCode raw ≠ "CNY") (h2 : normCode raw ≠ "USDT")
    (hc : rateMap.get ⟨utf8Bytes (formatDate dt), normCode raw, "CNY"⟩ = none) :
    convertAmount rateMap (normCode raw) dt base =
      .error (noRateText (formatDate dt) (normCode raw) "CNY") := by
  have hl := lookupRateCached_missing rateMap dt (normCode raw) "CNY"
    (by rw [normCode_idem, normCode_CNY]; exact h1)
    (by rw [normCode_idem, normCode_CNY]; exact hc)
  rw [normCode_idem, normCode_CNY] at hl
  unfold convertAmount
  rw [if_neg h1, if_neg h2, hl]
  rfl

theorem convertAmount_other_missing_USDT [UpperCase] (rateMap : GoMap rateKey Float) (dt : Time)
    (raw : String) (base r : Float) (h1 : normCode raw ≠ "CNY") (h2 : normCode raw ≠ "USDT")
    (hc : rateMap.get ⟨utf8Bytes (formatDate dt), normCode raw, "CNY"⟩ = some r)
    (hu : rateMap.get ⟨utf8Bytes (formatDate dt), normCode raw, "USDT"⟩ = none) :
    convertAmount rateMap (normCode raw) dt base =
      .error (noRateText (formatDate dt) (normCode raw) "USDT") := by
  have hl1 := lookupRateCached_found rateMap dt (normCode raw) "CNY" r
    (by rw [normCode_idem, normCode_CNY]; exact h1)
    (by rw [normCode_idem, normCode_CNY]; exact hc)
  have hl2 := lookupRateCached_missing rateMap dt (normCode raw) "USDT"
    (by rw [normCode_idem, normCode_USDT]; exact h2)
    (by rw [normCode_idem, normCode_USDT]; exact hu)
  rw [normCode_idem, normCode_USDT] at hl2
  unfold convertAmount
  rw [if_neg h1, if_neg h2, hl1, hl2]
  rfl

/-- C4: for a record with a non-null currency and entry date and an
amount-field-set with a base value entry, if a rate the record's currency
requires is missing from the rate map for the entry date (CNY->USDT for CNY,
USDT->CNY for USDT, currency->CNY for another currency whether or not
currency->USDT is present, currency->USDT when currency->CNY is present), then
the iteration writes neither column of the set, the status is 2, and the reason
returned holds `rate_reason=` followed by the text of the lookup error. The
function returns its pair in every case: it has no error result. -/
theorem computeUpdateCached_rate_missing [UpperCase] (mapping : FieldMapping)
    (pre : List AmountFieldSet) (set : AmountFieldSet) (post : List AmountFieldSet)
    (rec : recordRow) (siteMap subMap : GoMap String officeInfo)
    (rateMap : GoMap rateKey Float) (table : String) (bv : NullFloat64)
    (ht : table ≠ "acc_channel_info")
    (hcur : rec.Currency.Valid = true) (hdate : rec.EntryDate.Valid = true)
    (hb : rec.Amounts.get set.Base = some bv) :
    (normCode rec.Currency.Str = "CNY" →
      rateMap.get ⟨utf8Bytes (formatDate rec.EntryDate.Time), "CNY", "USDT"⟩ = none →
      RateFailure mapping pre set post rec siteMap subMap rateMap table
        (noRateText (formatDate rec.EntryDate.Time) "CNY" "USDT")) ∧
    (normCode rec.Currency.Str = "USDT" →
      rateMap.get ⟨utf8Bytes (formatDate rec.EntryDate.Time), "USDT", "CNY"⟩ = none →
      RateFailure mapping pre set post rec siteMap subMap rateMap table
        (noRateText (formatDate rec.EntryDate.Time) "USDT" "CNY")) ∧
    (normCode rec.Currency.Str ≠ "CNY" → normCode rec.Currency.Str ≠ "USDT" →
      rateMap.get ⟨utf8Bytes (formatDate rec.EntryDate.Time), normCode rec.Currency.Str, "CNY"⟩ = none →
      RateFailure mapping pre set post rec siteMap subMap rateMap table
        (noRateText (formatDate rec.EntryDate.Time) (normCode rec.Currency.Str) "CNY")) ∧
    (normCode rec.Currency.Str ≠ "CNY" → normCode rec.Currency.Str ≠ "USDT" → ∀ r : Float,
      rateMap.get ⟨utf8Bytes (formatDate rec.EntryDate.Time), normCode rec.Currency.Str, "CNY"⟩ = some r →
      rateMap.get ⟨utf8Bytes (formatDate rec.EntryDate.Time), normCode rec.Currency.Str, "USDT"⟩ = none →
      RateFailure mapping pre set post rec siteMap subMap rateMap table
        (noRateText (formatDate rec.EntryDate.Time) (normCode rec.Currency.Str) "USDT")) := by
  refine ⟨?_, ?_, ?_, ?_⟩
  · intro hc hr
    apply rateFailure_of_convertAmount _ _ _ _ _ _ _ _ _ bv _ hb ht hcur hdate
    rw [hc]
    exact convertAmount_CNY_missing rateMap _ _ hr
  · intro hc hr
    apply rateFailure_of_convertAmount _ _ _ _ _ _ _ _ _ bv _ hb ht hcur hdate
    rw [hc]
    exact convertAmount_USDT_missing rateMap _ _ hr
  · intro h1 h2 hr
    apply rateFailure_of_convertAmount _ _ _ _ _ _ _ _ _ bv _ hb ht hcur hdate
    exact convertAmount_other_missing_CNY rateMap _ _ _ h1 h2 hr
  · intro h1 h2 r hr1 hr2
    apply rateFailure_of_convertAmount _ _ _ _ _ _ _ _ _ bv _ hb ht hcur hdate
    exact convertAmount_other_missing_USDT rateMap _ _ _ r h1 h2 hr1 hr2

theorem computeUpdateCached_rate_missing_witness :
    RateFailure sampleMapping [] sampleAmount [sampleConverted] eurRecord sampleSiteMap
      GoMap.empty sampleRates "acc_expenses" (noRateText "2024-02-09" "EUR" "USDT") :=
  (computeUpdateCached_rate_missing sampleMapping [] sampleAmount [sampleConverted] eurRecord
    sampleSiteMap GoMap.empty sampleRates "acc_expenses" ⟨5, true⟩
    (by decide) rfl rfl rfl).2.2.2 (by decide) (by decide) 8 rfl rfl

/-! ## Office failures -/

theorem stepSet_update_congr [UpperCase] (rec : recordRow) (rateMap : GoMap rateKey Float) (table : String)
    (st1 st2 : LoopState) (set : AmountFieldSet) (h : st1.update = st2.update) :
    (stepSet rec rateMap table st1 set).update = (stepSet rec rateMap table st2 set).update := by
  cases hb : rec.Amounts.get set.Base with
  | none => rw [stepSet_noBase _ _ _ _ _ hb, stepSet_noBase _ _ _ _ _ hb, h]
  | some bv =>
    by_cases ht : table = "acc_channel_info"
    · subst ht
      rw [stepSet_channel, stepSet_channel, h]
    · by_cases hcur : rec.Currency.Valid = true
      · by_cases hdate : rec.EntryDate.Valid = true
        · cases hc : convertAmount rateMap (normCode rec.Currency.Str) rec.EntryDate.Time
              bv.Float64 with
          | ok p =>
            obtain ⟨cny, usdt⟩ := p
            rw [stepSet_converted rec rateMap table st1 set bv cny usdt hb ht hcur hdate hc,
              stepSet_converted rec rateMap table st2 set bv cny usdt hb ht hcur hdate hc]
            simp only [h]
          | error e =>
            rw [stepSet_failed rec rateMap table st1 set bv e hb ht hcur hdate hc,
              stepSet_failed rec rateMap table st2 set bv e hb ht hcur hdate hc]
            exact h
        · rw [stepSet_invalid rec rateMap table st1 set bv hb ht (Or.inr (by simpa using hdate)),
            stepSet_invalid rec rateMap table st2 set bv hb ht (Or.inr (by simpa using hdate))]
          exact h
      · rw [stepSet_invalid rec rateMap table st1 set bv hb ht (Or.inl (by simpa using hcur)),
          stepSet_invalid rec rateMap table st2 set bv hb ht (Or.inl (by simpa using hcur))]
        exact h

theorem foldl_stepSet_update_congr [UpperCase] (rec : recordRow) (rateMap : GoMap rateKey Float)
    (table : String) (sets : List AmountFieldSet) (st1 st2 : LoopState)
    (h : st1.update = st2.update) :
    (sets.foldl (stepSet rec rateMap table) st1).update =
      (sets.foldl (stepSet rec rateMap table) st2).update := by
  induction sets generalizing st1 st2 with
  | nil => exact h
  | cons a l ih =>
    rw [List.foldl_cons, List.foldl_cons]
    exact ih _ _ (stepSet_update_congr rec rateMap table st1 st2 a h)

/-- What the loop writes does not depend on the outcome of office resolution. -/
theorem convertSets_update_indep [UpperCase] (rec : recordRow) (rateMap : GoMap rateKey Float)
    (table : String) (r1 r2 : String) (sets : List AmountFieldSet) :
    (convertSets rec rateMap table r1 sets).update =
      (convertSets rec rateMap table r2 sets).update :=
  foldl_stepSet_update_congr rec rateMap table sets _ _ rfl

theorem fillOffice_empty (mapping : FieldMapping) (update : GoMap String Val) :
    fillOffice mapping {} update = update := by
  simp [fillOffice]

theorem buildReason_office (officeReason rateReason : String) (h : officeReason ≠ "") :
    ∃ b : String, buildReason officeReason rateReason = "office_reason=" ++ officeReason ++ b := by
  unfold buildReason
  by_cases hr : rateReason = ""
  · refine ⟨"", ?_⟩
    simp only [hr, h, ne_eq, not_true_eq_false, not_false_eq_true, if_true, if_false,
      List.nil_append, joinStrings, String.append_empty]
  · refine ⟨"; " ++ ("rate_reason=" ++ rateReason), ?_⟩
    simp only [hr, h, ne_eq, not_false_eq_true, if_true, List.nil_append,
      List.singleton_append, joinStrings, String.append_assoc]

theorem resolveOfficeCached_site_missing (mapping : FieldMapping) (rec : recordRow)
    (siteMap subMap : GoMap String officeInfo) (hs : mapping.SiteCode ≠ "")
    (hr : rec.SiteCode ≠ "") (hmiss : siteMap.get rec.SiteCode = none) :
    resolveOfficeCached mapping rec siteMap subMap = ({}, "office not found by site_code") := by
  simp [resolveOfficeCached, hs, hr, hmiss]

theorem resolveOfficeCached_site_found (mapping : FieldMapping) (rec : recordRow)
    (siteMap subMap : GoMap String officeInfo) (office : officeInfo)
    (hs : mapping.SiteCode ≠ "")
    (hr : rec.SiteCode ≠ "") (hfound : siteMap.get rec.SiteCode = some office) :
    resolveOfficeCached mapping rec siteMap subMap = (office, "") := by
  simp [resolveOfficeCached, hs, hr, hfound]

/-- C5: when the mapping declares a site-code column and the record's
non-empty site code has no entry in the site map, the status is 2 and the reason
contains `office not found by site_code`; and against any site map in which the
code does resolve, the loop over the sets writes the same update set, the
failing run returns these writes unchanged under every column other than
`status` and `recompute_info`, and the two runs agree on every column that is
not an office or status column: no amount column is withheld. -/
theorem computeUpdateCached_site_missing [UpperCase] (mapping : FieldMapping) (sets : List AmountFieldSet)
    (rec : recordRow) (siteMap subMap : GoMap String officeInfo)
    (rateMap : GoMap rateKey Float) (table : String)
    (hs : mapping.SiteCode ≠ "") (hr : rec.SiteCode ≠ "")
    (hmiss : siteMap.get rec.SiteCode = none) :
    statusOf (computeUpdateCached mapping sets rec siteMap subMap rateMap table).1 =
      some (.int 2) ∧
    Contains (computeUpdateCached mapping sets rec siteMap subMap rateMap table).2
      "office not found by site_code" ∧
    ∀ (siteMap' : GoMap String officeInfo) (office : officeInfo),
      siteMap'.get rec.SiteCode = some office →
      (convertSets rec rateMap table (resolveOfficeCached mapping rec siteMap subMap).2
          sets).update =
        (convertSets rec rateMap table (resolveOfficeCached mapping rec siteMap' subMap).2
          sets).update ∧
      (∀ c : String, c ≠ "status" → c ≠ "recompute_info" →
        (computeUpdateCached mapping sets rec siteMap subMap rateMap table).1.get c =
          (convertSets rec rateMap table (resolveOfficeCached mapping rec siteMap' subMap).2
            sets).update.get c) ∧
      (∀ c : String, c ∉ laterColumns mapping [] →
        (computeUpdateCached mapping sets rec siteMap subMap rateMap table).1.get c =
          (computeUpdateCached mapping sets rec siteMap' subMap rateMap table).1.get c) := by
  have hres := resolveOfficeCached_site_missing mapping rec siteMap subMap hs hr hmiss
  have hfail : ∀ c : String, c ≠ "status" → c ≠ "recompute_info" → ∀ r : String,
      (computeUpdateCached mapping sets rec siteMap subMap rateMap table).1.get c =
        (convertSets rec rateMap table r sets).update.get c := by
    intro c h1 h2 r
    rw [computeUpdateCached_get_other _ _ _ _ _ _ _ _ h1 h2, hres, fillOffice_empty,
      convertSets_update_indep rec rateMap table _ r]
  refine ⟨?_, ?_, ?_⟩
  · rw [status_of_computeUpdateCached, hres]
    unfold convertSets
    rw [foldl_stepSet_allOK_false _ _ _ _ _ (by decide)]
    rfl
  · rw [computeUpdateCached_reason, hres]
    obtain ⟨b, hb⟩ := buildReason_office "office not found by site_code"
      (convertSets rec rateMap table "office not found by site_code" sets).rateReason
      (by decide)
    exact ⟨"office_reason=", b, hb⟩
  · intro siteMap' office hfound
    refine ⟨convertSets_update_indep _ _ _ _ _ _, fun c h1 h2 => hfail c h1 h2 _, ?_⟩
    intro c hc
    obtain ⟨_, h2, h3, h4⟩ := not_mem_laterColumns mapping [] c hc
    rw [hfail c h3 h4 (resolveOfficeCached mapping rec siteMap' subMap).2,
      computeUpdateCached_get_other _ _ _ _ _ _ _ _ h3 h4, fillOffice_get_other _ _ _ _ h2]

theorem computeUpdateCached_site_missing_witness :
    statusOf (computeUpdateCached sampleMapping sampleMapping.AmountSets sampleRecord
      GoMap.empty GoMap.empty sampleRates "acc_expenses").1 = some (.int 2) ∧
    (computeUpdateCached sampleMapping sampleMapping.AmountSets sampleRecord
      GoMap.empty GoMap.empty sampleRates "acc_expenses").1.get "amount_usdt" =
    (computeUpdateCached sampleMapping sampleMapping.AmountSets sampleRecord
      sampleSiteMap GoMap.empty sampleRates "acc_expenses").1.get "amount_usdt" :=
  have h := computeUpdateCached_site_missing sampleMapping sampleMapping.AmountSets sampleRecord
    GoMap.empty GoMap.empty sampleRates "acc_expenses" (by decide) (by decide) rfl
  ⟨h.1, (h.2.2 sampleSiteMap sampleOffice rfl).2.2 "amount_usdt" (by decide)⟩

/-! ## Office resolution and the shape of the update set -/

/-- C6: `resolveOfficeCached` follows a strict precedence. With a declared
site-code column and a non-empty site code the site map alone decides: its entry,
or the failure `office not found by site_code`, whatever the sub map holds.
Otherwise, with a declared sub-code column and a non-empty sub code, the sub map
decides: its entry or the failure `office not found by sub_code`. Otherwise the
result is the empty office with an empty reason. -/
theorem resolveOfficeCached_precedence (mapping : FieldMapping) (rec : recordRow)
    (siteMap subMap : GoMap String officeInfo) :
    (mapping.SiteCode ≠ "" ∧ rec.SiteCode ≠ "" →
      (∀ oi, siteMap.get rec.SiteCode = some oi →
        resolveOfficeCached mapping rec siteMap subMap = (oi, "")) ∧
      (siteMap.get rec.SiteCode = none →
        resolveOfficeCached mapping rec siteMap subMap =
          ({}, "office not found by site_code"))) ∧
    (¬ (mapping.SiteCode ≠ "" ∧ rec.SiteCode ≠ "") →
      mapping.SubCode ≠ "" ∧ rec.SubCode ≠ "" →
      (∀ oi, subMap.get rec.SubCode = some oi →
        resolveOfficeCached mapping rec siteMap subMap = (oi, "")) ∧
      (subMap.get rec.SubCode = none →
        resolveOfficeCached mapping rec siteMap subMap =
          ({}, "office not found by sub_code"))) ∧
    (¬ (mapping.SiteCode ≠ "" ∧ rec.SiteCode ≠ "") →
      ¬ (mapping.SubCode ≠ "" ∧ rec.SubCode ≠ "") →
      resolveOfficeCached mapping rec siteMap subMap = ({}, "")) := by
  refine ⟨fun h => ⟨fun oi ho => ?_, fun ho => ?_⟩,
    fun h1 h2 => ⟨fun oi ho => ?_, fun ho => ?_⟩, fun h1 h2 => ?_⟩
  · exact resolveOfficeCached_site_found mapping rec siteMap subMap oi h.1 h.2 ho
  · exact resolveOfficeCached_site_missing mapping rec siteMap subMap h.1 h.2 ho
  · unfold resolveOfficeCached
    rw [if_neg h1, if_pos h2, ho]
  · unfold resolveOfficeCached
    rw [if_neg h1, if_pos h2, ho]
  · unfold resolveOfficeCached
    rw [if_neg h1, if_neg h2]

/-- C7, on `acc_expenses` and a record whose site code resolves to the office
with main code `M1`, sub code `SB1`, site code `S1` and the names `Main One`,
`Sub One`: the update set returned maps the main-code column `main_office` to
the name `Main One` and the sub-code column `sub_office` to the name `Sub One`,
not to the codes; only the site-code column holds the resolved code. -/
theorem office_codes_overwritten_by_names [UpperCase] :
    TableFieldMappings.get "acc_expenses" = some sampleMapping ∧
    resolveOfficeCached sampleMapping sampleRecord sampleSiteMap GoMap.empty =
      (sampleOffice, "") ∧
    sampleOffice.MainCode = "M1" ∧ sampleOffice.SubCode = "SB1" ∧
    (computeUpdateCached sampleMapping sampleMapping.AmountSets sampleRecord sampleSiteMap
      GoMap.empty sampleRates "acc_expenses").1.get sampleMapping.MainCode =
        some (.str "Main One") ∧
    (computeUpdateCached sampleMapping sampleMapping.AmountSets sampleRecord sampleSiteMap
      GoMap.empty sampleRates "acc_expenses").1.get sampleMapping.SubCode =
        some (.str "Sub One") ∧
    (computeUpdateCached sampleMapping sampleMapping.AmountSets sampleRecord sampleSiteMap
      GoMap.empty sampleRates "acc_expenses").1.get sampleMapping.SiteCode =
        some (.str "S1") := by
  have h : IsAscii sampleRecord.Currency.Str := by unfold IsAscii; decide
  rw [computeUpdateCached_ascii _ _ _ _ _ _ _ h]
  exact ⟨rfl, rfl, rfl, rfl, rfl, rfl, rfl⟩

theorem loopInv_stepSet [UpperCase] (rec : recordRow) (rateMap : GoMap rateKey Float) (table : String)
    (officeReason : String) (st : LoopState) (set : AmountFieldSet)
    (h : LoopInv officeReason st) : LoopInv officeReason (stepSet rec rateMap table st set) := by
  have hfalse : ∀ r : String, r ≠ "" →
      LoopInv officeReason { st with allOK := false, rateReason := r } :=
    fun r hr => ⟨fun h => by simp at h, fun _ => Or.inr hr⟩
  cases hb : rec.Amounts.get set.Base with
  | none => rw [stepSet_noBase _ _ _ _ _ hb]; exact h
  | some bv =>
    by_cases ht : table = "acc_channel_info"
    · subst ht
      rw [stepSet_channel]; exact h
    · by_cases hcur : rec.Currency.Valid = true
      · by_cases hdate : rec.EntryDate.Valid = true
        · cases hc : convertAmount rateMap (normCode rec.Currency.Str) rec.EntryDate.Time
              bv.Float64 with
          | ok p =>
            obtain ⟨cny, usdt⟩ := p
            rw [stepSet_converted rec rateMap table st set bv cny usdt hb ht hcur hdate hc]
            exact h
          | error e =>
            rw [stepSet_failed rec rateMap table st set bv e hb ht hcur hdate hc]
            exact hfalse _ (appendReason_ne_empty_right _ _
              (convertAmount_error_ne_empty _ _ _ _ _ hc))
        · have hd : rec.EntryDate.Valid = false := by simpa using hdate
          rw [stepSet_invalid rec rateMap table st set bv hb ht (Or.inr hd)]
          apply hfalse
          rw [if_pos hd]
          exact appendReason_ne_empty_right _ _ (by decide)
      · have hcv : rec.Currency.Valid = false := by simpa using hcur
        rw [stepSet_invalid rec rateMap table st set bv hb ht (Or.inl hcv)]
        apply hfalse
        split_ifs
        · exact appendReason_ne_empty_right _ _ (by decide)
        · exact appendReason_ne_empty_right _ _ (by decide)

theorem loopInv_foldl [UpperCase] (rec : recordRow) (rateMap : GoMap rateKey Float) (table : String)
    (officeReason : String) (sets : List AmountFieldSet) (st : LoopState)
    (h : LoopInv officeReason st) :
    LoopInv officeReason (sets.foldl (stepSet rec rateMap table) st) := by
  induction sets generalizing st with
  | nil => exact h
  | cons a l ih =>
    rw [List.foldl_cons]
    exact ih _ (loopInv_stepSet rec rateMap table officeReason st a h)

theorem loopInv_convertSets [UpperCase] (rec : recordRow) (rateMap : GoMap rateKey Float) (table : String)
    (officeReason : String) (sets : List AmountFieldSet) :
    LoopInv officeReason (convertSets rec rateMap table officeReason sets) := by
  unfold convertSets
  apply loopInv_foldl
  constructor
  · intro h
    exact ⟨by simpa using h, rfl⟩
  · intro h
    exact Or.inl (by simpa using h)

theorem buildUpdatesBatch_eq [UpperCase] (mapping : FieldMapping) (sets : List AmountFieldSet)
    (recMap : GoMap Nat recordRow) (siteMap subMap : GoMap String officeInfo)
    (rateMap : GoMap rateKey Float) (table : String) (ids : List Nat) :
    buildUpdatesBatch mapping sets recMap siteMap subMap rateMap table ids =
      ids.filterMap (fun id => (recMap.get id).map (fun rec =>
        (computeUpdateCached mapping sets rec siteMap subMap rateMap table).1.set
          mapping.IDColumn (.uint id))) := by
  unfold buildUpdatesBatch
  have hne : ∀ rec, (computeUpdateCached mapping sets rec siteMap subMap rateMap table).1.len
      ≠ 0 := by
    intro rec
    unfold computeUpdateCached
    simp only []
    split <;> exact Nat.pos_iff_ne_zero.mp (GoMap.len_set_pos _ _ _)
  suffices h : ∀ acc : List (GoMap String Val),
      ids.foldl (fun updatesBatch id =>
        match recMap.get id with
        | none => updatesBatch
        | some rec =>
          let upd := (computeUpdateCached mapping sets rec siteMap subMap rateMap table).1
          if upd.len = 0 then updatesBatch
          else updatesBatch ++ [upd.set mapping.IDColumn (.uint id)]) acc =
      acc ++ ids.filterMap (fun id => (recMap.get id).map (fun rec =>
        (computeUpdateCached mapping sets rec siteMap subMap rateMap table).1.set
          mapping.IDColumn (.uint id))) by
    simpa using h []
  induction ids with
  | nil => intro acc; simp
  | cons a l ih =>
    intro acc
    rw [List.foldl_cons, ih]
    cases hr : recMap.get a with
    | none => simp [List.filterMap_cons, hr]
    | some rec => simp [List.filterMap_cons, hr, hne rec]

/-- C8: every update set `computeUpdateCached` returns has exactly one of two
shapes: status 1 with `recompute_info` nil and an empty reason returned, or
status 2 with `recompute_info` equal to the reason returned and that reason
non-empty. So it is never empty, and the record loop of `handleTable` puts every
record found into the batch, with the row id under the id column. -/
theorem computeUpdateCached_shape [UpperCase] (mapping : FieldMapping) (sets : List AmountFieldSet)
    (rec : recordRow) (siteMap subMap : GoMap String officeInfo)
    (rateMap : GoMap rateKey Float) (table : String) :
    (ResolvedShape (computeUpdateCached mapping sets rec siteMap subMap rateMap table).1
        (computeUpdateCached mapping sets rec siteMap subMap rateMap table).2 ∨
      PendingShape (computeUpdateCached mapping sets rec siteMap subMap rateMap table).1
        (computeUpdateCached mapping sets rec siteMap subMap rateMap table).2) ∧
    ¬ (ResolvedShape (computeUpdateCached mapping sets rec siteMap subMap rateMap table).1
        (computeUpdateCached mapping sets rec siteMap subMap rateMap table).2 ∧
      PendingShape (computeUpdateCached mapping sets rec siteMap subMap rateMap table).1
        (computeUpdateCached mapping sets rec siteMap subMap rateMap table).2) ∧
    (computeUpdateCached mapping sets rec siteMap subMap rateMap table).1.len ≠ 0 ∧
    ∀ (recMap : GoMap Nat recordRow) (ids : List Nat),
      buildUpdatesBatch mapping sets recMap siteMap subMap rateMap table ids =
        ids.filterMap (fun id => (recMap.get id).map (fun rec =>
          (computeUpdateCached mapping sets rec siteMap subMap rateMap table).1.set
            mapping.IDColumn (.uint id))) ∧
      ∀ row ∈ buildUpdatesBatch mapping sets recMap siteMap subMap rateMap table ids,
        ∃ id ∈ ids, row.get mapping.IDColumn = some (.uint id) := by
  have hinv := loopInv_convertSets rec rateMap table
    (resolveOfficeCached mapping rec siteMap subMap).2 sets
  refine ⟨?_, ?_, ?_, ?_⟩
  · have hreason := computeUpdateCached_reason mapping sets rec siteMap subMap rateMap table
    cases hok : (convertSets rec rateMap table
        (resolveOfficeCached mapping rec siteMap subMap).2 sets).allOK with
    | true =>
      left
      obtain ⟨ho, hr⟩ := hinv.1 hok
      refine ⟨?_, ?_, ?_⟩
      · have := status_of_computeUpdateCached mapping sets rec siteMap subMap rateMap table
        rw [hok] at this
        exact this
      · unfold computeUpdateCached
        simp only [hok, if_true]
        exact GoMap.get_set_self _ _ _
      · rw [hreason, hr, ho]
        rfl
    | false =>
      right
      have hne : (computeUpdateCached mapping sets rec siteMap subMap rateMap table).2 ≠ "" := by
        rw [hreason]
        rcases hinv.2 hok with ho | hr
        · obtain ⟨b, hb⟩ := buildReason_office _ (convertSets rec rateMap table
            (resolveOfficeCached mapping rec siteMap subMap).2 sets).rateReason ho
          rw [hb]
          exact str_ne_empty_of_append_left _ _ (str_ne_empty_of_append_left _ _ (by decide))
        · obtain ⟨a, ha⟩ := buildReason_rate (resolveOfficeCached mapping rec siteMap subMap).2
            _ hr
          rw [ha]
          exact str_ne_empty_of_append_right _ _ hr
      refine ⟨?_, ?_, hne⟩
      · have := status_of_computeUpdateCached mapping sets rec siteMap subMap rateMap table
        rw [hok] at this
        exact this
      · unfold computeUpdateCached
        simp only [hok]
        exact GoMap.get_set_self _ _ _
  · rintro ⟨⟨h1, _, _⟩, ⟨h2, _, _⟩⟩
    rw [h1] at h2
    simp at h2
  · unfold computeUpdateCached
    simp only []
    split <;> exact Nat.pos_iff_ne_zero.mp (GoMap.len_set_pos _ _ _)
  · intro recMap ids
    refine ⟨buildUpdatesBatch_eq _ _ _ _ _ _ _ _, ?_⟩
    intro row hrow
    rw [buildUpdatesBatch_eq, List.mem_filterMap] at hrow
    obtain ⟨id, hid, hrow⟩ := hrow
    refine ⟨id, hid, ?_⟩
    cases hr : recMap.get id with
    | none => rw [hr] at hrow; simp at hrow
    | some rec' =>
      rw [hr] at hrow
      simp only [Option.map_some', Option.some.injEq] at hrow
      rw [← hrow]
      exact GoMap.get_set_self _ _ _

/-! ## The prefetch loops -/

/-- C9, on two rows for the site code `S1` in descending order of the primary
key: the site loop of `prefetchOffices` assigns `siteMap[sc]` for every row, so
the map ends with the office of the last row, the one with the lowest primary
key (main code `M1`), and not with the office of the first row. -/
theorem site_loop_last_write_wins :
    duplicateSiteRows.Pairwise (fun a b => b.id < a.id) ∧
    (prefetchOfficesSiteLoop duplicateSiteRows).get "S1" =
      some { MainCode := "M1", MainOffice := "Main One", SubCode := "SB1",
             SubOffice := "Sub One", SiteCode := "S1", Site := "S1" } ∧
    (prefetchOfficesSiteLoop duplicateSiteRows).get "S1" ≠
      (duplicateSiteRows.head?).map siteOffice := by
  decide

theorem prefetchRates_foldl_get [UpperCase] (rows : List rateRow) (m : GoMap rateKey Float) (k : rateKey) :
    (rows.foldl (fun rateMap r =>
      match rateMap.get (rateRowKey r) with
      | none => rateMap.set (rateRowKey r) r.rate
      | some _ => rateMap) m).get k =
    match m.get k with
    | some v => some v
    | none => (rows.find? (fun r => decide (rateRowKey r = k))).map (fun r => r.rate) := by
  induction rows generalizing m with
  | nil =>
    rw [List.foldl_nil]
    cases m.get k <;> rfl
  | cons a l ih =>
    rw [List.foldl_cons, ih]
    by_cases hk : rateRowKey a = k
    · subst hk
      cases hm : m.get (rateRowKey a) with
      | none => simp [GoMap.get_set_self, List.find?_cons]
      | some v => simp [hm]
    · cases hm : m.get (rateRowKey a) with
      | none => simp [GoMap.get_set_ne _ _ hk, List.find?_cons, hk]
      | some v => simp [List.find?_cons, hk]

theorem find_first_has_max_id (rows : List rateRow) (p : rateRow → Bool)
    (hs : rows.Pairwise (fun a b => b.id < a.id)) (r0 : rateRow)
    (h : rows.find? p = some r0) : ∀ r ∈ rows, p r = true → r.id ≤ r0.id := by
  induction rows with
  | nil => simp at h
  | cons a l ih =>
    rw [List.pairwise_cons] at hs
    intro r hr hp
    by_cases ha : p a = true
    · rw [List.find?_cons, ha] at h
      injection h with h
      subst h
      rcases List.mem_cons.mp hr with rfl | hr
      · exact le_refl _
      · exact Nat.le_of_lt (hs.1 r hr)
    · have ha' : p a = false := by simpa using ha
      rw [List.find?_cons, ha'] at h
      rcases List.mem_cons.mp hr with rfl | hr
      · exact absurd hp ha
      · exact ih hs.2 h r hr hp

/-- C10: for rate rows in descending order of the primary key, the rate map
the loop of `prefetchRates` builds holds, under every normalised key, the rate
of the first row with that key; and for every row, the rate selected for its key
is that of a row with the same key whose primary key is the highest among the
rows with that key. -/
theorem prefetchRates_first_write_wins [UpperCase] (rows : List rateRow)
    (hs : rows.Pairwise (fun a b => b.id < a.id)) :
    (∀ k : rateKey, (prefetchRatesLoop rows).get k =
      (rows.find? (fun r => decide (rateRowKey r = k))).map (fun r => r.rate)) ∧
    ∀ r ∈ rows, ∃ r0 ∈ rows, rateRowKey r0 = rateRowKey r ∧
      (prefetchRatesLoop rows).get (rateRowKey r) = some r0.rate ∧
      ∀ r' ∈ rows, rateRowKey r' = rateRowKey r → r'.id ≤ r0.id := by
  have hget : ∀ k : rateKey, (prefetchRatesLoop rows).get k =
      (rows.find? (fun r => decide (rateRowKey r = k))).map (fun r => r.rate) := by
    intro k
    exact (prefetchRates_foldl_get rows GoMap.empty k).trans rfl
  refine ⟨hget, ?_⟩
  intro r hr
  cases hf : rows.find? (fun x => decide (rateRowKey x = rateRowKey r)) with
  | none =>
    rw [List.find?_eq_none] at hf
    exact absurd (hf r hr) (by simp)
  | some r0 =>
    refine ⟨r0, List.mem_of_find?_eq_some hf, ?_, ?_, ?_⟩
    · simpa using List.find?_some hf
    · rw [hget, hf]
      rfl
    · intro r' hr' hk
      exact find_first_has_max_id rows _ hs r0 hf r' hr' (by simpa using hk)

theorem prefetchRates_first_write_wins_witness :
    duplicateRateRows.Pairwise (fun a b => b.id < a.id) ∧
    (prefetchRatesLoop duplicateRateRows).get ⟨utf8Bytes "2024-02-09", "CNY", "USDT"⟩ = some 7 :=
  ⟨by decide, (prefetchRates_first_write_wins duplicateRateRows (by decide)).1
    ⟨utf8Bytes "2024-02-09", "CNY", "USDT"⟩⟩

/-! ## Null currency or entry date -/

theorem stepSet_null_update [UpperCase] (rec : recordRow) (rateMap : GoMap rateKey Float) (table : String)
    (st : LoopState) (set : AmountFieldSet)
    (hnull : rec.Currency.Valid = false ∨ rec.EntryDate.Valid = false) :
    (stepSet rec rateMap table st set).update = st.update := by
  cases hb : rec.Amounts.get set.Base with
  | none => rw [stepSet_noBase _ _ _ _ _ hb]
  | some bv =>
    by_cases ht : table = "acc_channel_info"
    · subst ht
      rw [stepSet_channel]
    · rw [stepSet_invalid rec rateMap table st set bv hb ht hnull]

theorem stepSet_null_rateMap [UpperCase] (rec : recordRow) (rateMap rateMap' : GoMap rateKey Float)
    (table : String) (st : LoopState) (set : AmountFieldSet)
    (hnull : rec.Currency.Valid = false ∨ rec.EntryDate.Valid = false) :
    stepSet rec rateMap' table st set = stepSet rec rateMap table st set := by
  cases hb : rec.Amounts.get set.Base with
  | none => rw [stepSet_noBase _ _ _ _ _ hb, stepSet_noBase _ _ _ _ _ hb]
  | some bv =>
    by_cases ht : table = "acc_channel_info"
    · subst ht
      rw [stepSet_channel, stepSet_channel]
    · rw [stepSet_invalid rec rateMap table st set bv hb ht hnull,
        stepSet_invalid rec rateMap' table st set bv hb ht hnull]

theorem foldl_stepSet_null_update [UpperCase] (rec : recordRow) (rateMap : GoMap rateKey Float)
    (table : String) (sets : List AmountFieldSet) (st : LoopState)
    (hnull : rec.Currency.Valid = false ∨ rec.EntryDate.Valid = false) :
    (sets.foldl (stepSet rec rateMap table) st).update = st.update := by
  induction sets generalizing st with
  | nil => rfl
  | cons a l ih => rw [List.foldl_cons, ih, stepSet_null_update _ _ _ _ _ hnull]

theorem foldl_stepSet_null_rateMap [UpperCase] (rec : recordRow) (rateMap rateMap' : GoMap rateKey Float)
    (table : String) (sets : List AmountFieldSet) (st : LoopState)
    (hnull : rec.Currency.Valid = false ∨ rec.EntryDate.Valid = false) :
    sets.foldl (stepSet rec rateMap' table) st = sets.foldl (stepSet rec rateMap table) st := by
  induction sets generalizing st with
  | nil => rfl
  | cons a l ih =>
    rw [List.foldl_cons, List.foldl_cons, ih, stepSet_null_rateMap _ _ _ _ _ _ hnull]

theorem contains_prefix (a r e : String) (h : Contains r e) : Contains (a ++ r) e := by
  obtain ⟨p, q, rfl⟩ := h
  exact ⟨a ++ p, q, by simp only [String.append_assoc]⟩

/-- The rate reason after the iteration for a set with a base entry, of a
record with a null currency or entry date. -/
theorem stepSet_null_reason [UpperCase] (rec : recordRow) (rateMap : GoMap rateKey Float) (table : String)
    (st : LoopState) (set : AmountFieldSet) (bv : NullFloat64)
    (hb : rec.Amounts.get set.Base = some bv) (ht : table ≠ "acc_channel_info")
    (hnull : rec.Currency.Valid = false ∨ rec.EntryDate.Valid = false) :
    (stepSet rec rateMap table st set).allOK = false ∧
    (rec.Currency.Valid = false →
      Contains (stepSet rec rateMap table st set).rateReason "currency NULL") ∧
    (rec.EntryDate.Valid = false →
      Contains (stepSet rec rateMap table st set).rateReason "entry_date NULL") := by
  rw [stepSet_invalid rec rateMap table st set bv hb ht hnull]
  refine ⟨rfl, ?_, ?_⟩
  · intro hc
    simp only [hc, if_true]
    split_ifs
    · exact contains_appendReason_left _ _ _ (contains_appendReason_right _ _) (by decide)
    · exact contains_appendReason_right _ _
  · intro hd
    simp only [hd, if_true]
    exact contains_appendReason_right _ _

/-- For a record of an amount-bearing table whose currency or entry date is
null, no iteration writes a column and none reads the rate map, so no CNY or USDT
column of any set is in the update set unless it is an office or status column;
and as soon as one set has an entry under its base column, the status is 2 and
the reason contains `currency NULL` when the currency is null and
`entry_date NULL` when the entry date is null. -/
theorem null_currency_or_date_of_entry [UpperCase] (mapping : FieldMapping)
    (sets : List AmountFieldSet) (rec : recordRow) (siteMap subMap : GoMap String officeInfo)
    (rateMap : GoMap rateKey Float) (table : String)
    (ht : table ≠ "acc_channel_info")
    (hnull : rec.Currency.Valid = false ∨ rec.EntryDate.Valid = false) :
    (convertSets rec rateMap table (resolveOfficeCached mapping rec siteMap subMap).2
      sets).update = GoMap.empty ∧
    (∀ rateMap' : GoMap rateKey Float,
      computeUpdateCached mapping sets rec siteMap subMap rateMap' table =
        computeUpdateCached mapping sets rec siteMap subMap rateMap table) ∧
    (∀ set ∈ sets, ∀ c : String, c = set.Cny ∨ c = set.Usdt → c ∉ laterColumns mapping [] →
      (computeUpdateCached mapping sets rec siteMap subMap rateMap table).1.get c = none) ∧
    ((∃ set ∈ sets, rec.Amounts.get set.Base ≠ none) →
      statusOf (computeUpdateCached mapping sets rec siteMap subMap rateMap table).1 =
        some (.int 2) ∧
      (rec.Currency.Valid = false →
        Contains (computeUpdateCached mapping sets rec siteMap subMap rateMap table).2
          "currency NULL") ∧
      (rec.EntryDate.Valid = false →
        Contains (computeUpdateCached mapping sets rec siteMap subMap rateMap table).2
          "entry_date NULL")) := by
  have hupd : (convertSets rec rateMap table (resolveOfficeCached mapping rec siteMap subMap).2
      sets).update = GoMap.empty := by
    unfold convertSets
    rw [foldl_stepSet_null_update _ _ _ _ _ hnull]
  refine ⟨hupd, ?_, ?_, ?_⟩
  · intro rateMap'
    unfold computeUpdateCached convertSets
    simp only [foldl_stepSet_null_rateMap rec rateMap rateMap' table sets _ hnull]
  · intro set _ c _ hc
    obtain ⟨_, h2, h3, h4⟩ := not_mem_laterColumns mapping [] c hc
    rw [computeUpdateCached_get_other _ _ _ _ _ _ _ _ h3 h4, fillOffice_get_other _ _ _ _ h2,
      hupd]
    rfl
  · rintro ⟨set, hmem, hentry⟩
    obtain ⟨pre, post, rfl⟩ := List.append_of_mem hmem
    cases hb : rec.Amounts.get set.Base with
    | none => exact absurd hb hentry
    | some bv =>
      obtain ⟨hok, hc, hd⟩ := stepSet_null_reason rec rateMap table
        (convertSets rec rateMap table (resolveOfficeCached mapping rec siteMap subMap).2 pre)
        set bv hb ht hnull
      have hfinal : ∀ e : String, e ≠ "" →
          Contains (stepSet rec rateMap table (convertSets rec rateMap table
            (resolveOfficeCached mapping rec siteMap subMap).2 pre) set).rateReason e →
          Contains (computeUpdateCached mapping (pre ++ set :: post) rec siteMap subMap
            rateMap table).2 e := by
        intro e he hcont
        rw [computeUpdateCached_reason, convertSets_append, List.foldl_cons]
        have hc2 := foldl_stepSet_rateReason_contains rec rateMap table post _ e hcont he
        obtain ⟨a, ha⟩ := buildReason_rate (resolveOfficeCached mapping rec siteMap subMap).2 _
          (contains_ne_empty _ _ hc2 he)
        rw [ha]
        exact contains_prefix _ _ _ hc2
      refine ⟨?_, fun h => hfinal _ (by decide) (hc h), fun h => hfinal _ (by decide) (hd h)⟩
      rw [status_of_computeUpdateCached, convertSets_append, List.foldl_cons,
        foldl_stepSet_allOK_false _ _ _ _ _ hok]
      rfl

theorem mem_sortStrings (l : List String) (x : String) : x ∈ sortStrings l ↔ x ∈ l :=
  (List.perm_insertionSort _ l).mem_iff

theorem foldl_grows (f : List String → AmountFieldSet → List String)
    (hmono : ∀ acc s, ∀ x ∈ acc, x ∈ f acc s)
    (hbase : ∀ acc s, s.Base ≠ "" → s.Base ∈ f acc s)
    (sets : List AmountFieldSet) (acc : List String) :
    (∀ x ∈ acc, x ∈ sets.foldl f acc) ∧
    (∀ s ∈ sets, s.Base ≠ "" → s.Base ∈ sets.foldl f acc) := by
  induction sets generalizing acc with
  | nil => exact ⟨fun x hx => hx, fun s hs => absurd hs (List.not_mem_nil s)⟩
  | cons a l ih =>
    refine ⟨fun x hx => ?_, fun s hs hb => ?_⟩
    · rw [List.foldl_cons]
      exact (ih _).1 x (hmono acc a x hx)
    · rw [List.foldl_cons]
      rcases List.mem_cons.mp hs with rfl | hs
      · exact (ih _).1 _ (hbase acc s hb)
      · exact (ih _).2 s hs hb

theorem base_mem_amountCols (sets : List AmountFieldSet) (s : AmountFieldSet)
    (hs : s ∈ sets) (hb : s.Base ≠ "") : s.Base ∈ amountCols sets := by
  unfold amountCols
  refine (foldl_grows _ ?_ ?_ sets []).2 s hs hb
  · intro acc a x hx
    dsimp only
    split_ifs <;> simp [hx]
  · intro acc a hb
    dsimp only
    by_cases hin : a.Base ∈ acc
    · split_ifs <;> simp [hin]
    · split_ifs <;> simp_all

/-- Every non-empty base column of the sets is a column of `amountColList`. -/
theorem base_mem_amountColList (sets : List AmountFieldSet) (s : AmountFieldSet)
    (hs : s ∈ sets) (hb : s.Base ≠ "") : s.Base ∈ amountColList sets := by
  unfold amountColList
  rw [mem_sortStrings]
  exact base_mem_amountCols sets s hs hb

theorem scan_foldl_get (l : List (String × Option Float)) (m : GoMap String NullFloat64)
    (c : String) (h : c ∈ l.map Prod.fst ∨ m.get c ≠ none) :
    (l.foldl (fun m cv => m.set cv.1 (scanNullFloat64 cv.2)) m).get c ≠ none := by
  induction l generalizing m with
  | nil =>
    rcases h with h | h
    · simp at h
    · exact h
  | cons a l ih =>
    rw [List.foldl_cons]
    apply ih
    rcases h with h | h
    · rw [List.map_cons, List.mem_cons] at h
      rcases h with rfl | h
      · right
        rw [GoMap.get_set_self]
        exact Option.some_ne_none _
      · exact Or.inl h
    · right
      rw [GoMap.get_set]
      split_ifs
      · exact Option.some_ne_none _
      · exact h

/-- The map `rr.Amounts` of a loaded record has an entry under every column of
the query, whether the amount scanned is SQL `NULL` or not. -/
theorem scanAmounts_get (cols : List String) (vals : List (Option Float)) (c : String)
    (hlen : vals.length = cols.length) (hc : c ∈ cols) :
    (scanAmounts cols vals).get c ≠ none := by
  unfold scanAmounts
  apply scan_foldl_get
  left
  rw [List.map_fst_zip _ _ (le_of_eq hlen.symm)]
  exact hc

/-- Every amount-field-set of a table of the registry other than the office-only
`acc_channel_info` names a base column, and every such table has a set. -/
theorem registry_sets_have_base :
    ∀ e ∈ TableFieldMappings.entries, e.1 ≠ "acc_channel_info" →
      e.2.AmountSets ≠ [] ∧ ∀ set ∈ e.2.AmountSets, set.Base ≠ "" := by
  decide

/-- A record loaded from a row with SQL `NULL` in `currency` or `entry_date`
has the corresponding `Valid` flag unset. -/
theorem scanRecord_null (table : String) (mapping : FieldMapping) (cols : List String)
    (row : fetchedRow) (ht : table ≠ "acc_channel_info")
    (hnull : row.currency = none ∨ row.entryDate = none) :
    ((scanRecord table mapping cols row).Currency.Valid = false ∨
      (scanRecord table mapping cols row).EntryDate.Valid = false) ∧
    (row.currency = none → (scanRecord table mapping cols row).Currency.Valid = false) ∧
    (row.entryDate = none → (scanRecord table mapping cols row).EntryDate.Valid = false) := by
  have hc : row.currency = none → (scanRecord table mapping cols row).Currency.Valid = false := by
    intro h
    simp [scanRecord, ht, h, scanNullString]
  have hd : row.entryDate = none →
      (scanRecord table mapping cols row).EntryDate.Valid = false := by
    intro h
    simp [scanRecord, ht, h, scanNullTime]
  exact ⟨hnull.imp hc hd, hc, hd⟩

/-- C13: for every record `fetchRecordsBatch` loads for an amount-bearing table
(not `acc_channel_info`) with at least one amount-field-set, each set naming a
base column, from a row with SQL `NULL` in `currency` or in `entry_date`:
every iteration of the loop of `computeUpdateCached` fails its set, writes no
column and is the same whatever the rate map holds (no rate is looked up); the
loop leaves the update set empty, so no CNY or USDT column of any set is in the
update set returned unless it is also an office or status column; the status is
2, and the reason contains `currency NULL` when the currency is null and
`entry_date NULL` when the entry date is null. -/
theorem computeUpdateCached_null_currency_or_date [UpperCase] (mapping : FieldMapping)
    (sets : List AmountFieldSet) (row : fetchedRow) (rec : recordRow)
    (siteMap subMap : GoMap String officeInfo) (rateMap : GoMap rateKey Float) (table : String)
    (ht : table ≠ "acc_channel_info") (hsets : sets ≠ [])
    (hbase : ∀ set ∈ sets, set.Base ≠ "")
    (hlen : row.amounts.length = (amountColList sets).length)
    (hrec : rec = scanRecord table mapping (amountColList sets) row)
    (hnull : row.currency = none ∨ row.entryDate = none) :
    (∀ set ∈ sets, ∀ st : LoopState,
      (stepSet rec rateMap table st set).allOK = false ∧
      (stepSet rec rateMap table st set).update = st.update ∧
      (∀ rateMap' : GoMap rateKey Float,
        stepSet rec rateMap' table st set = stepSet rec rateMap table st set) ∧
      (row.currency = none →
        Contains (stepSet rec rateMap table st set).rateReason "currency NULL") ∧
      (row.entryDate = none →
        Contains (stepSet rec rateMap table st set).rateReason "entry_date NULL")) ∧
    (convertSets rec rateMap table (resolveOfficeCached mapping rec siteMap subMap).2
      sets).update = GoMap.empty ∧
    (∀ rateMap' : GoMap rateKey Float,
      computeUpdateCached mapping sets rec siteMap subMap rateMap' table =
        computeUpdateCached mapping sets rec siteMap subMap rateMap table) ∧
    (∀ set ∈ sets, ∀ c : String, c = set.Cny ∨ c = set.Usdt → c ∉ laterColumns mapping [] →
      (computeUpdateCached mapping sets rec siteMap subMap rateMap table).1.get c = none) ∧
    statusOf (computeUpdateCached mapping sets rec siteMap subMap rateMap table).1 =
      some (.int 2) ∧
    (row.currency = none →
      Contains (computeUpdateCached mapping sets rec siteMap subMap rateMap table).2
        "currency NULL") ∧
    (row.entryDate = none →
      Contains (computeUpdateCached mapping sets rec siteMap subMap rateMap table).2
        "entry_date NULL") := by
  subst hrec
  obtain ⟨hv, hc, hd⟩ := scanRecord_null table mapping (amountColList sets) row ht hnull
  have hentry : ∀ set ∈ sets,
      (scanRecord table mapping (amountColList sets) row).Amounts.get set.Base ≠ none := by
    intro set hset
    exact scanAmounts_get _ _ _ hlen (base_mem_amountColList sets set hset (hbase set hset))
  obtain ⟨h1, h2, h3, h4⟩ := null_currency_or_date_of_entry mapping sets
    (scanRecord table mapping (amountColList sets) row) siteMap subMap rateMap table ht hv
  obtain ⟨s0, hs0⟩ := List.exists_mem_of_ne_nil sets hsets
  obtain ⟨h5, h6, h7⟩ := h4 ⟨s0, hs0, hentry s0 hs0⟩
  refine ⟨?_, h1, h2, h3, h5, fun h => h6 (hc h), fun h => h7 (hd h)⟩
  intro set hset st
  cases hb : (scanRecord table mapping (amountColList sets) row).Amounts.get set.Base with
  | none => exact absurd hb (hentry set hset)
  | some bv =>
    obtain ⟨g1, g2, g3⟩ := stepSet_null_reason _ rateMap table st set bv hb ht hv
    exact ⟨g1, stepSet_null_update _ _ _ _ _ hv,
      fun rateMap' => stepSet_null_rateMap _ rateMap rateMap' table st set hv,
      fun h => g2 (hc h), fun h => g3 (hd h)⟩

set_option maxRecDepth 100000 in
theorem computeUpdateCached_null_currency_or_date_witness :
    nullCurrencyRow.currency = none ∧
    nullCurrencyRow.amounts.length = (amountColList sampleMapping.AmountSets).length ∧
    (scanRecord "acc_expenses" sampleMapping (amountColList sampleMapping.AmountSets)
      nullCurrencyRow).Amounts.get "amount" = some ⟨5, true⟩ ∧
    statusOf (computeUpdateCached sampleMapping sampleMapping.AmountSets
      (scanRecord "acc_expenses" sampleMapping (amountColList sampleMapping.AmountSets)
        nullCurrencyRow) sampleSiteMap GoMap.empty sampleRates "acc_expenses").1 =
      some (.int 2) ∧
    Contains (computeUpdateCached sampleMapping sampleMapping.AmountSets
      (scanRecord "acc_expenses" sampleMapping (amountColList sampleMapping.AmountSets)
        nullCurrencyRow) sampleSiteMap GoMap.empty sampleRates "acc_expenses").2
      "currency NULL" :=
  ⟨rfl, by decide, rfl,
   (computeUpdateCached_null_currency_or_date sampleMapping sampleMapping.AmountSets
      nullCurrencyRow _ sampleSiteMap GoMap.empty sampleRates "acc_expenses" (by decide)
      (by decide) (by decide) (by decide) rfl (Or.inl rfl)).2.2.2.2.1,
   (computeUpdateCached_null_currency_or_date sampleMapping sampleMapping.AmountSets
      nullCurrencyRow _ sampleSiteMap GoMap.empty sampleRates "acc_expenses" (by decide)
      (by decide) (by decide) (by decide) rfl (Or.inl rfl)).2.2.2.2.2.1 rfl⟩

/-! ## The batch writer: batch size -/

theorem addCell_ids (idCol : String) (id : Val) (st : CaseState) (cell : String × Val) :
    (addCell idCol id st cell).ids = st.ids := by
  unfold addCell
  split <;> rfl

theorem foldl_addCell_ids (idCol : String) (id : Val) (cells : List (String × Val))
    (st : CaseState) : (cells.foldl (addCell idCol id) st).ids = st.ids := by
  induction cells generalizing st with
  | nil => rfl
  | cons a l ih => rw [List.foldl_cons, ih, addCell_ids]

theorem addRow_ids (idCol : String) (st : CaseState) (r : GoMap String Val) :
    (addRow idCol st r).ids = st.ids ++ [rowId idCol r] := by
  unfold addRow
  rw [foldl_addCell_ids]

theorem foldl_addRow_ids (idCol : String) (rows : List (GoMap String Val)) (st : CaseState) :
    (rows.foldl (addRow idCol) st).ids = st.ids ++ rows.map (rowId idCol) := by
  induction rows generalizing st with
  | nil => simp
  | cons a l ih => rw [List.foldl_cons, ih, addRow_ids, List.map_cons, List.append_assoc]; rfl

theorem collectCases_ids (idCol : String) (rows : List (GoMap String Val)) :
    (collectCases idCol rows).ids = rows.map (rowId idCol) := by
  unfold collectCases
  rw [foldl_addRow_ids]
  rfl

theorem buildStatement_ids (table idCol : String) (rows : List (GoMap String Val)) :
    (buildStatement table idCol rows).ids = rows.map (rowId idCol) :=
  collectCases_ids idCol rows

/-- C11: for a non-empty list of update rows whose length differs from
`batchSize`, `batchUpdate` returns an error and executes no statement; and
whenever it executes the batched UPDATE, the list has exactly `batchSize`
rows. -/
theorem batchUpdate_checks_batch_size (table idCol : String) (rows : List (GoMap String Val))
    (batchSize : Int) :
    (rows ≠ [] → (rows.length : Int) ≠ batchSize →
      ∃ msg, batchUpdate table idCol rows batchSize = .error msg) ∧
    (∀ sqlStr args, batchUpdate table idCol rows batchSize = .exec sqlStr args →
      (rows.length : Int) = batchSize) := by
  have hlen : ((buildStatement table idCol rows).ids.length : Int) = rows.length := by
    rw [buildStatement_ids, List.length_map]
  constructor
  · intro hne hsize
    have h0 : rows.length ≠ 0 := fun h => hne (List.length_eq_zero.mp h)
    unfold batchUpdate
    rw [if_neg h0]
    simp only []
    split_ifs with h1 h2
    · exact ⟨_, rfl⟩
    · exact ⟨_, rfl⟩
    · rw [hlen] at h2
      exact absurd (not_not.mp h2) hsize
  · intro sqlStr args h
    unfold batchUpdate at h
    simp only [] at h
    split_ifs at h with h0 h1 h2
    rw [hlen] at h2
    exact not_not.mp h2

theorem batchUpdate_checks_batch_size_witness :
    ∃ msg, batchUpdate "acc_expenses" "id" sampleRows 100 = .error msg :=
  (batchUpdate_checks_batch_size "acc_expenses" "id" sampleRows 100).1
    (fun h => List.noConfusion h) (by decide)

/-! ## Maps of slices -/

theorem sliceAt_appendAt {ν : Type} (m : GoMap String (List ν)) (k k' : String) (xs : List ν) :
    sliceAt (appendAt m k xs) k' = if k = k' then sliceAt m k ++ xs else sliceAt m k' := by
  unfold appendAt
  simp only [sliceAt, GoMap.get_set]
  split <;> rfl

theorem assign_keys {κ ν : Type} [DecidableEq κ] (m : List (κ × ν)) (k : κ) (v : ν) :
    (assignEntries m k v).map Prod.fst =
      if k ∈ m.map Prod.fst then m.map Prod.fst else m.map Prod.fst ++ [k] := by
  induction m with
  | nil => simp [assignEntries]
  | cons p m ih =>
    obtain ⟨a, b⟩ := p
    by_cases h : a = k
    · subst h
      simp [assignEntries]
    · have h' : ¬ k = a := fun e => h e.symm
      simp only [assignEntries, h, if_false, List.map_cons, ih, List.mem_cons, h', false_or]
      split <;> simp

theorem GoMap.keys_set {κ ν : Type} [DecidableEq κ] (m : GoMap κ ν) (k : κ) (v : ν) :
    (m.set k v).keys = if k ∈ m.keys then m.keys else m.keys ++ [k] :=
  assign_keys m.entries k v

theorem GoMap.mem_keys_set {κ ν : Type} [DecidableEq κ] (m : GoMap κ ν) (k x : κ) (v : ν) :
    x ∈ (m.set k v).keys ↔ x ∈ m.keys ∨ x = k := by
  rw [GoMap.keys_set]
  split
  · constructor
    · exact Or.inl
    · rintro (h | rfl)
      · exact h
      · assumption
  · simp

theorem GoMap.nodup_keys_set {κ ν : Type} [DecidableEq κ] (m : GoMap κ ν) (k : κ) (v : ν)
    (h : m.keys.Nodup) : (m.set k v).keys.Nodup := by
  rw [GoMap.keys_set]
  split
  · exact h
  · rename_i hk
    exact List.Nodup.append h (List.nodup_singleton k) (by simpa using hk)

theorem lookupEntries_eq_none {κ ν : Type} [DecidableEq κ] (m : List (κ × ν)) (k : κ) :
    lookupEntries m k = none ↔ k ∉ m.map Prod.fst := by
  induction m with
  | nil => simp [lookupEntries]
  | cons p m ih =>
    obtain ⟨a, b⟩ := p
    by_cases h : a = k
    · subst h
      simp [lookupEntries]
    · have h' : ¬ k = a := fun e => h e.symm
      simp [lookupEntries, h, h', ih]

theorem GoMap.get_eq_none {κ ν : Type} [DecidableEq κ] (m : GoMap κ ν) (k : κ) :
    m.get k = none ↔ k ∉ m.keys :=
  lookupEntries_eq_none m.entries k

/-- The effect of one pass over the cells of a row on a map of slices. -/
theorem foldl_cells_slice {α : Type} (idCol : String) (f : String × Val → List α)
    (cells : List (String × Val)) (m : GoMap String (List α)) (col : String)
    (hnd : (cells.map Prod.fst).Nodup) :
    sliceAt (cells.foldl (fun m cell =>
        if cell.1 = idCol then m else appendAt m cell.1 (f cell)) m) col =
      sliceAt m col ++
        (if col = idCol then []
         else match lookupEntries cells col with
          | some v => f (col, v)
          | none => []) := by
  induction cells generalizing m with
  | nil => simp [lookupEntries]
  | cons c l ih =>
    obtain ⟨k, v⟩ := c
    rw [List.map_cons, List.nodup_cons] at hnd
    rw [List.foldl_cons, ih _ hnd.2]
    by_cases hk : k = idCol
    · subst hk
      by_cases hc : col = k
      · simp [hc]
      · have hc' : ¬ k = col := fun e => hc e.symm
        simp [hc, hc', lookupEntries]
    · by_cases hc : k = col
      · subst hc
        have hnone : lookupEntries l k = none := (lookupEntries_eq_none l k).mpr hnd.1
        simp [hk, sliceAt_appendAt, lookupEntries, hnone]
      · by_cases hci : col = idCol
        · simp [hk, hci, sliceAt_appendAt, hc]
        · simp [hk, hci, sliceAt_appendAt, hc, lookupEntries]

theorem foldl_cells_keys {α : Type} (idCol : String) (f : String × Val → List α)
    (cells : List (String × Val)) (m : GoMap String (List α)) (x : String) :
    x ∈ (cells.foldl (fun m cell =>
        if cell.1 = idCol then m else appendAt m cell.1 (f cell)) m).keys ↔
      x ∈ m.keys ∨ (x ≠ idCol ∧ x ∈ cells.map Prod.fst) := by
  induction cells generalizing m with
  | nil => simp
  | cons c l ih =>
    obtain ⟨k, v⟩ := c
    rw [List.foldl_cons, ih]
    by_cases hk : k = idCol
    · subst hk
      simp only [if_true, List.map_cons, List.mem_cons]
      constructor
      · rintro (h | ⟨h1, h2⟩)
        · exact Or.inl h
        · exact Or.inr ⟨h1, Or.inr h2⟩
      · rintro (h | ⟨h1, h2 | h2⟩)
        · exact Or.inl h
        · exact absurd h2 h1
        · exact Or.inr ⟨h1, h2⟩
    · simp only [hk, if_false, appendAt, GoMap.mem_keys_set, List.map_cons, List.mem_cons]
      constructor
      · rintro ((h | h) | ⟨h1, h2⟩)
        · exact Or.inl h
        · exact Or.inr ⟨h ▸ hk, Or.inl h⟩
        · exact Or.inr ⟨h1, Or.inr h2⟩
      · rintro (h | ⟨h1, h2 | h2⟩)
        · exact Or.inl (Or.inl h)
        · exact Or.inl (Or.inr h2)
        · exact Or.inr ⟨h1, h2⟩

theorem foldl_cells_nodup {α : Type} (idCol : String) (f : String × Val → List α)
    (cells : List (String × Val)) (m : GoMap String (List α)) (h : m.keys.Nodup) :
    (cells.foldl (fun m cell =>
        if cell.1 = idCol then m else appendAt m cell.1 (f cell)) m).keys.Nodup := by
  induction cells generalizing m with
  | nil => exact h
  | cons c l ih =>
    rw [List.foldl_cons]
    apply ih
    split
    · exact h
    · exact GoMap.nodup_keys_set _ _ _ h

/-! ## The first loops of the batch writer -/

/-- The effect of the passes over all rows on a map of slices. -/
theorem foldl_rows_slice {α : Type} (idCol : String)
    (f : GoMap String Val → String × Val → List α) (rows : List (GoMap String Val))
    (m : GoMap String (List α)) (col : String) (hwf : ∀ r ∈ rows, r.WF) :
    sliceAt (rows.foldl (fun m r => r.entries.foldl (fun m cell =>
        if cell.1 = idCol then m else appendAt m cell.1 (f r cell)) m) m) col =
      sliceAt m col ++ rows.flatMap (fun r =>
        if col = idCol then []
        else match r.get col with
          | some v => f r (col, v)
          | none => []) := by
  induction rows generalizing m with
  | nil => simp
  | cons r l ih =>
    rw [List.foldl_cons, ih _ (fun x hx => hwf x (List.mem_cons_of_mem _ hx)),
      foldl_cells_slice idCol (f r) r.entries m col (hwf r (List.mem_cons_self _ _)),
      List.flatMap_cons, List.append_assoc]
    rfl

theorem foldl_rows_keys {α : Type} (idCol : String)
    (f : GoMap String Val → String × Val → List α) (rows : List (GoMap String Val))
    (m : GoMap String (List α)) (x : String) :
    x ∈ (rows.foldl (fun m r => r.entries.foldl (fun m cell =>
        if cell.1 = idCol then m else appendAt m cell.1 (f r cell)) m) m).keys ↔
      x ∈ m.keys ∨ (x ≠ idCol ∧ ∃ r ∈ rows, x ∈ r.keys) := by
  induction rows generalizing m with
  | nil => simp
  | cons r l ih =>
    rw [List.foldl_cons, ih, foldl_cells_keys]
    simp only [List.mem_cons, exists_eq_or_imp, GoMap.keys]
    tauto

theorem foldl_rows_nodup {α : Type} (idCol : String)
    (f : GoMap String Val → String × Val → List α) (rows : List (GoMap String Val))
    (m : GoMap String (List α)) (h : m.keys.Nodup) :
    (rows.foldl (fun m r => r.entries.foldl (fun m cell =>
        if cell.1 = idCol then m else appendAt m cell.1 (f r cell)) m) m).keys.Nodup := by
  induction rows generalizing m with
  | nil => exact h
  | cons r l ih =>
    rw [List.foldl_cons]
    exact ih _ (foldl_cells_nodup idCol (f r) r.entries m h)

theorem foldl_addCell_cases (idCol : String) (id : Val) (cells : List (String × Val))
    (st : CaseState) :
    (cells.foldl (addCell idCol id) st).cases =
      cells.foldl (fun m cell =>
        if cell.1 = idCol then m else appendAt m cell.1 ["WHEN ? THEN ?"]) st.cases := by
  induction cells generalizing st with
  | nil => rfl
  | cons c l ih =>
    rw [List.foldl_cons, List.foldl_cons, ih]
    congr 1
    unfold addCell
    split <;> rfl

theorem foldl_addCell_colArgs (idCol : String) (id : Val) (cells : List (String × Val))
    (st : CaseState) :
    (cells.foldl (addCell idCol id) st).colArgs =
      cells.foldl (fun m cell =>
        if cell.1 = idCol then m else appendAt m cell.1 [id, cell.2]) st.colArgs := by
  induction cells generalizing st with
  | nil => rfl
  | cons c l ih =>
    rw [List.foldl_cons, List.foldl_cons, ih]
    congr 1
    unfold addCell
    split <;> rfl

theorem foldl_addRow_cases (idCol : String) (rows : List (GoMap String Val)) (st : CaseState) :
    (rows.foldl (addRow idCol) st).cases =
      rows.foldl (fun m r => r.entries.foldl (fun m cell =>
        if cell.1 = idCol then m else appendAt m cell.1 ["WHEN ? THEN ?"]) m) st.cases := by
  induction rows generalizing st with
  | nil => rfl
  | cons r l ih =>
    rw [List.foldl_cons, List.foldl_cons, ih]
    congr 1
    unfold addRow
    rw [foldl_addCell_cases]

theorem foldl_addRow_colArgs (idCol : String) (rows : List (GoMap String Val))
    (st : CaseState) :
    (rows.foldl (addRow idCol) st).colArgs =
      rows.foldl (fun m r => r.entries.foldl (fun m cell =>
        if cell.1 = idCol then m else appendAt m cell.1 [rowId idCol r, cell.2]) m)
        st.colArgs := by
  induction rows generalizing st with
  | nil => rfl
  | cons r l ih =>
    rw [List.foldl_cons, List.foldl_cons, ih]
    congr 1
    unfold addRow
    rw [foldl_addCell_colArgs]

/-- The slice of positional arguments collected under a column: the id and the
value of every row that has the column, in row order. -/
theorem collectCases_colArgs (idCol : String) (rows : List (GoMap String Val)) (col : String)
    (hwf : ∀ r ∈ rows, r.WF) :
    sliceAt (collectCases idCol rows).colArgs col = rows.flatMap (cellArgs idCol col) := by
  unfold collectCases
  rw [foldl_addRow_colArgs, foldl_rows_slice idCol _ rows _ col hwf]
  simp only [sliceAt, GoMap.get_empty, Option.getD_none, List.nil_append]
  rfl

/-- The slice of `WHEN ? THEN ?` collected under a column: one for every row
that has the column. -/
theorem collectCases_cases (idCol : String) (rows : List (GoMap String Val)) (col : String)
    (hwf : ∀ r ∈ rows, r.WF) :
    sliceAt (collectCases idCol rows).cases col = rows.flatMap (fun r =>
      if col = idCol then []
      else match r.get col with
        | some _ => ["WHEN ? THEN ?"]
        | none => []) := by
  unfold collectCases
  rw [foldl_addRow_cases, foldl_rows_slice idCol _ rows _ col hwf]
  simp only [sliceAt, GoMap.get_empty, Option.getD_none, List.nil_append]

theorem collectCases_keys (idCol : String) (rows : List (GoMap String Val)) (x : String) :
    x ∈ (collectCases idCol rows).cases.keys ↔ x ≠ idCol ∧ ∃ r ∈ rows, x ∈ r.keys := by
  unfold collectCases
  rw [foldl_addRow_cases, foldl_rows_keys]
  simp [GoMap.keys, GoMap.empty]

theorem collectCases_keys_nodup (idCol : String) (rows : List (GoMap String Val)) :
    (collectCases idCol rows).cases.keys.Nodup := by
  unfold collectCases
  rw [foldl_addRow_cases]
  exact foldl_rows_nodup idCol _ rows _ (by simp [GoMap.keys, GoMap.empty])

theorem collectClauses_eq (idCol : String) (st : CaseState) (cols : List String) :
    collectClauses idCol st cols =
      { setClauses := cols.map (setClause idCol st.cases)
        args := cols.flatMap (sliceAt st.colArgs) } := by
  unfold collectClauses
  suffices h : ∀ acc : ClauseState,
      cols.foldl (fun acc col =>
        { setClauses := acc.setClauses ++ [setClause idCol st.cases col]
          args := acc.args ++ sliceAt st.colArgs col }) acc =
      { setClauses := acc.setClauses ++ cols.map (setClause idCol st.cases)
        args := acc.args ++ cols.flatMap (sliceAt st.colArgs) } by
    simpa using h { setClauses := [], args := [] }
  induction cols with
  | nil => intro acc; simp
  | cons c l ih =>
    intro acc
    rw [List.foldl_cons, ih]
    simp [List.flatMap_cons, List.append_assoc]

/-! ## The order of sort.Strings -/

theorem runesLess_asymm (a b : List Char) (h : runesLess a b = true) : runesLess b a = false := by
  induction a generalizing b with
  | nil => cases b <;> simp [runesLess] at h ⊢
  | cons x xs ih =>
    cases b with
    | nil => simp [runesLess] at h
    | cons y ys =>
      simp only [runesLess] at h ⊢
      by_cases h1 : x.toNat < y.toNat
      · have h2 : ¬ y.toNat < x.toNat := by omega
        simp [h2, h1]
      · by_cases h2 : y.toNat < x.toNat
        · simp [h1, h2] at h
        · simp only [h1, h2, if_false] at h ⊢
          exact ih ys h

theorem runesLess_neg_trans (c a b : List Char) (h : runesLess c a = true) :
    runesLess c b = true ∨ runesLess b a = true := by
  induction c generalizing a b with
  | nil =>
    cases a with
    | nil => simp [runesLess] at h
    | cons x xs =>
      cases b with
      | nil => right; simp [runesLess]
      | cons y ys => left; simp [runesLess]
  | cons z zs ih =>
    cases a with
    | nil => simp [runesLess] at h
    | cons x xs =>
      cases b with
      | nil => right; simp [runesLess]
      | cons y ys =>
        simp only [runesLess] at h ⊢
        by_cases h1 : z.toNat < y.toNat
        · left; simp [h1]
        · by_cases h2 : y.toNat < x.toNat
          · right; simp [h2]
          · by_cases h3 : z.toNat < x.toNat
            · omega
            · by_cases h4 : x.toNat < z.toNat
              · simp [h3, h4] at h
              · have e1 : ¬ y.toNat < z.toNat := by omega
                have e2 : ¬ x.toNat < y.toNat := by omega
                simp only [h3, h4, if_false] at h
                simp only [h1, e1, h2, e2, if_false]
                exact ih xs ys h

theorem runesLess_total (a b : List Char) (h1 : runesLess a b = false)
    (h2 : runesLess b a = false) : a = b := by
  induction a generalizing b with
  | nil => cases b <;> simp [runesLess] at h1 ⊢
  | cons x xs ih =>
    cases b with
    | nil => simp [runesLess] at h2
    | cons y ys =>
      simp only [runesLess] at h1 h2
      by_cases e1 : x.toNat < y.toNat
      · simp [e1] at h1
      · by_cases e2 : y.toNat < x.toNat
        · simp [e2] at h2
        · simp only [e1, e2, if_false] at h1 h2
          have hn : x.toNat = y.toNat := by omega
          have hxy : x = y := by rw [← Char.ofNat_toNat x, ← Char.ofNat_toNat y, hn]
          rw [hxy, ih ys h1 h2]

/-- The call `sort.Strings` returns its strings in strictly increasing order
when they are distinct, and keeps the strings it is given. -/
theorem sortStrings_sorted (l : List String) (hnd : l.Nodup) :
    (sortStrings l).Pairwise (fun a b => stringLess a b = true) ∧ (sortStrings l).Nodup ∧
    ∀ x, x ∈ sortStrings l ↔ x ∈ l := by
  have hperm : (sortStrings l).Perm l := List.perm_insertionSort _ l
  have hnd' : (sortStrings l).Nodup := hperm.nodup_iff.mpr hnd
  haveI : IsTotal String (fun a b => stringLess b a = false) := ⟨fun a b => by
    cases h : stringLess b a with
    | false => exact Or.inl rfl
    | true => exact Or.inr (runesLess_asymm _ _ h)⟩
  haveI : IsTrans String (fun a b => stringLess b a = false) := ⟨fun a b c hab hbc => by
    cases h : stringLess c a with
    | false => rfl
    | true =>
      rcases runesLess_neg_trans _ _ b.data h with h' | h'
      · exact absurd hbc (by rw [show stringLess c b = true from h']; simp)
      · exact absurd hab (by rw [show stringLess b a = true from h']; simp)⟩
  have hs : (sortStrings l).Sorted (fun a b => stringLess b a = false) :=
    List.sorted_insertionSort _ l
  refine ⟨?_, hnd', fun x => hperm.mem_iff⟩
  have hboth := List.Pairwise.and hs hnd'
  refine hboth.imp ?_
  intro a b hab
  cases h : stringLess a b with
  | true => rfl
  | false =>
    have e : a.data = b.data := runesLess_total _ _ h hab.1
    exact absurd (String.ext e) hab.2

/-! ## Counting placeholders -/

theorem countString_append (a b : String) (c : Char) :
    countString (a ++ b) c = countString a c + countString b c := by
  simp [countString, String.data_append, List.count_append]

theorem countString_of_noQuestionMark (s : String) (h : NoQuestionMark s) :
    countString s questionMark = 0 :=
  List.count_eq_zero.mpr h

theorem countString_joinStrings (l : List String) (sep : String) (c : Char)
    (h : countString sep c = 0) :
    countString (joinStrings l sep) c = (l.map (fun s => countString s c)).sum := by
  induction l with
  | nil => rfl
  | cons a t ih =>
    cases t with
    | nil => simp [joinStrings]
    | cons b t =>
      simp only [joinStrings, countString_append, h, ih, List.map_cons, List.sum_cons]
      omega

theorem countString_setClause (idCol : String) (cases : GoMap String (List String))
    (col : String) (h1 : NoQuestionMark idCol) (h2 : NoQuestionMark col) :
    countString (setClause idCol cases col) questionMark =
      ((sliceAt cases col).map (fun s => countString s questionMark)).sum := by
  have e1 : countString "`" questionMark = 0 := by decide
  have e2 : countString "` = CASE `" questionMark = 0 := by decide
  have e3 : countString "` " questionMark = 0 := by decide
  have e4 : countString " ELSE `" questionMark = 0 := by decide
  have e5 : countString "` END" questionMark = 0 := by decide
  have e6 : countString " " questionMark = 0 := by decide
  simp only [setClause, countString_append, e1, e2, e3, e4, e5,
    countString_of_noQuestionMark _ h1, countString_of_noQuestionMark _ h2,
    countString_joinStrings _ _ _ e6]
  omega

theorem repeatString_snoc (s : String) (n : Nat) :
    repeatString s (n + 1) = repeatString s n ++ s := by
  induction n with
  | zero => simp [repeatString]
  | succ n ih =>
    calc repeatString s (n + 2) = s ++ repeatString s (n + 1) := rfl
      _ = s ++ (repeatString s n ++ s) := by rw [ih]
      _ = (s ++ repeatString s n) ++ s := by rw [String.append_assoc]
      _ = repeatString s (n + 1) ++ s := rfl

theorem countString_repeat (n : Nat) : countString (repeatString "?," n) questionMark = n := by
  induction n with
  | zero => rfl
  | succ n ih =>
    rw [repeatString, countString_append, ih]
    have : countString "?," questionMark = 1 := by decide
    omega

theorem countString_inPlaceholders (n : Nat) :
    countString (trimRight (repeatString "?," n) comma) questionMark = n := by
  cases n with
  | zero => rfl
  | succ n =>
    have hd : (repeatString "?," (n + 1)).data =
        (repeatString "?," n).data ++ [questionMark, comma] := by
      rw [repeatString_snoc, String.data_append]
      rfl
    have hq : decide (questionMark = comma) = false := by decide
    simp only [trimRight, countString, hd, List.reverse_append, List.reverse_cons,
      List.reverse_nil, List.nil_append, List.singleton_append, List.cons_append,
      List.dropWhile_cons, decide_True, if_true, hq, Bool.false_eq_true, if_false,
      List.reverse_reverse, List.count_append]
    have := countString_repeat n
    simp only [countString] at this
    simp [this]

theorem cases_count_eq_args_length (idCol col : String) (rows : List (GoMap String Val)) :
    ((rows.flatMap (fun r =>
        if col = idCol then []
        else match r.get col with
          | some _ => ["WHEN ? THEN ?"]
          | none => [])).map (fun s => countString s questionMark)).sum =
      (rows.flatMap (cellArgs idCol col)).length := by
  induction rows with
  | nil => rfl
  | cons r l ih =>
    simp only [List.flatMap_cons, List.map_append, List.sum_append, List.length_append, ih]
    congr 1
    unfold cellArgs
    by_cases hc : col = idCol
    · simp [hc]
    · cases r.get col with
      | none => simp [hc]
      | some v =>
        simp only [hc, if_false, List.map_cons, List.map_nil, List.sum_cons, List.sum_nil,
          List.length_cons, List.length_nil]
        decide

/-! ## The statement of the batch writer -/

theorem length_flatMap_append {α β : Type} (l : List α) (f g : α → List β) :
    (l.flatMap (fun c => f c ++ g c)).length = (l.flatMap f).length + (l.flatMap g).length := by
  induction l with
  | nil => rfl
  | cons a t ih =>
    simp only [List.flatMap_cons, List.length_append, ih]
    omega

theorem mem_dataColumns (idCol : String) (r : GoMap String Val) (col : String) :
    col ∈ dataColumns idCol r ↔ col ≠ idCol ∧ r.get col ≠ none := by
  have hk : r.get col ≠ none ↔ col ∈ r.keys := by
    rw [ne_eq, GoMap.get_eq_none, not_not]
  unfold dataColumns
  simp only [List.mem_filter, decide_eq_true_eq, hk]
  tauto

theorem cellArgs_length (idCol col : String) (r : GoMap String Val) :
    (cellArgs idCol col r).length = if col ∈ dataColumns idCol r then 2 else 0 := by
  unfold cellArgs
  by_cases hc : col = idCol
  · have hn : col ∉ dataColumns idCol r := fun h => ((mem_dataColumns _ _ _).mp h).1 hc
    rw [if_pos hc, if_neg hn]
    rfl
  · rw [if_neg hc]
    cases hg : r.get col with
    | none =>
      have hn : col ∉ dataColumns idCol r := fun h => ((mem_dataColumns _ _ _).mp h).2 hg
      rw [if_neg hn]
      rfl
    | some v =>
      have hm : col ∈ dataColumns idCol r := (mem_dataColumns _ _ _).mpr ⟨hc, by simp [hg]⟩
      rw [if_pos hm]
      rfl

theorem row_args_length (idCol : String) (cols : List String) (r : GoMap String Val)
    (hcols : cols.Nodup) (hwf : r.WF) (hsub : ∀ k ∈ dataColumns idCol r, k ∈ cols) :
    (cols.flatMap (fun col => cellArgs idCol col r)).length =
      2 * (dataColumns idCol r).length := by
  have h1 : ∀ l : List String, (l.flatMap (fun col => cellArgs idCol col r)).length =
      2 * (l.filter (fun col => decide (col ∈ dataColumns idCol r))).length := by
    intro l
    induction l with
    | nil => rfl
    | cons a t ih =>
      simp only [List.flatMap_cons, List.length_append, ih, cellArgs_length, List.filter_cons]
      by_cases ha : a ∈ dataColumns idCol r
      · simp only [ha, if_true, decide_True, List.length_cons]
        omega
      · simp [ha]
  rw [h1]
  have hperm : (cols.filter (fun col => decide (col ∈ dataColumns idCol r))).Perm
      (dataColumns idCol r) := by
    have hd : (dataColumns idCol r).Nodup := List.Nodup.filter _ hwf
    refine (List.perm_ext_iff_of_nodup (hcols.filter _) hd).mpr ?_
    intro a
    simp only [List.mem_filter, decide_eq_true_eq]
    exact ⟨fun h => h.2, fun h => ⟨hsub a h, h⟩⟩
  rw [hperm.length_eq]

/-- Two positional arguments per pair of a row and one of its columns other than
the id column. -/
theorem args_length_pairs (idCol : String) (cols : List String)
    (rows : List (GoMap String Val)) (hcols : cols.Nodup) (hwf : ∀ r ∈ rows, r.WF)
    (hsub : ∀ r ∈ rows, ∀ k ∈ dataColumns idCol r, k ∈ cols) :
    (cols.flatMap (fun col => rows.flatMap (cellArgs idCol col))).length =
      2 * (rows.map (fun r => (dataColumns idCol r).length)).sum := by
  induction rows with
  | nil =>
    have h0 : ∀ l : List String, (l.flatMap (fun _ => ([] : List Val))).length = 0 := by
      intro l
      induction l with
      | nil => rfl
      | cons a t ih => simpa [List.flatMap_cons] using ih
    simpa using h0 cols
  | cons r l ih =>
    simp only [List.flatMap_cons, List.map_cons, List.sum_cons]
    rw [length_flatMap_append, row_args_length idCol cols r hcols
        (hwf r (List.mem_cons_self _ _)) (hsub r (List.mem_cons_self _ _)),
      ih (fun x hx => hwf x (List.mem_cons_of_mem _ hx))
        (fun x hx => hsub x (List.mem_cons_of_mem _ hx))]
    omega

theorem batchColumns_spec (idCol : String) (rows : List (GoMap String Val)) :
    (batchColumns idCol rows).Pairwise (fun a b => stringLess a b = true) ∧
    (batchColumns idCol rows).Nodup ∧
    ∀ col, col ∈ batchColumns idCol rows ↔ col ≠ idCol ∧ ∃ r ∈ rows, col ∈ r.keys := by
  obtain ⟨h1, h2, h3⟩ := sortStrings_sorted _ (collectCases_keys_nodup idCol rows)
  exact ⟨h1, h2, fun col => (h3 col).trans (collectCases_keys idCol rows col)⟩

theorem buildStatement_args (table idCol : String) (rows : List (GoMap String Val))
    (hwf : ∀ r ∈ rows, r.WF) :
    (buildStatement table idCol rows).args =
      (batchColumns idCol rows).flatMap (fun col => rows.flatMap (cellArgs idCol col)) ++
        rows.map (rowId idCol) := by
  unfold buildStatement batchColumns
  simp only [collectClauses_eq, collectCases_ids]
  congr 1
  apply List.flatMap_congr
  intro col _
  exact collectCases_colArgs idCol rows col hwf

theorem buildStatement_count (table idCol : String) (rows : List (GoMap String Val))
    (hwf : ∀ r ∈ rows, r.WF) (hq1 : NoQuestionMark table) (hq2 : NoQuestionMark idCol)
    (hq3 : ∀ r ∈ rows, ∀ k ∈ r.keys, NoQuestionMark k) :
    countString (buildStatement table idCol rows).sqlStr questionMark =
      ((batchColumns idCol rows).flatMap
        (fun col => rows.flatMap (cellArgs idCol col))).length + rows.length := by
  have e1 : countString "UPDATE `" questionMark = 0 := by decide
  have e2 : countString "` SET " questionMark = 0 := by decide
  have e3 : countString " WHERE `" questionMark = 0 := by decide
  have e4 : countString "` IN (" questionMark = 0 := by decide
  have e5 : countString ")" questionMark = 0 := by decide
  have e6 : countString ", " questionMark = 0 := by decide
  have hcols : ∀ col ∈ batchColumns idCol rows, NoQuestionMark col := by
    intro col hcol
    obtain ⟨_, r, hr, hk⟩ := ((batchColumns_spec idCol rows).2.2 col).mp hcol
    exact hq3 r hr col hk
  have hsum : ((batchColumns idCol rows).map (fun col =>
      countString (setClause idCol (collectCases idCol rows).cases col) questionMark)).sum =
      ((batchColumns idCol rows).flatMap
        (fun col => rows.flatMap (cellArgs idCol col))).length := by
    rw [List.length_flatMap]
    congr 1
    apply List.map_congr_left
    intro col hcol
    rw [countString_setClause _ _ _ hq2 (hcols col hcol), collectCases_cases _ _ _ hwf,
      cases_count_eq_args_length]
    rfl
  unfold buildStatement
  simp only [collectClauses_eq, countString_append, e1, e2, e3, e4, e5,
    countString_of_noQuestionMark _ hq1, countString_of_noQuestionMark _ hq2,
    countString_joinStrings _ _ _ e6, countString_inPlaceholders, List.map_map,
    collectCases_ids, List.length_map]
  have hsum' := hsum
  unfold batchColumns at hsum'
  simp only [Function.comp_def]
  rw [hsum']
  unfold batchColumns
  omega

/-! ## The batch writer: placeholders -/

/-- C14: for a non-empty list of update rows (Go maps, one entry per key) where
the table name, the id column and the column names of the rows have no `?`, the
statement `batchUpdate` builds has as many `?` as positional arguments. The
arguments are, for the columns other than the id column in strictly increasing
lexicographic order, the pair (id, value) of every row that has the column, in
row order, followed by the id of every row: two per pair of a row and one of its
columns, plus one per row. So the placeholder check passes and `batchUpdate`
returns the batch-size error or executes the statement. -/
theorem batchUpdate_placeholders_match (table idCol : String) (rows : List (GoMap String Val))
    (hne : rows ≠ []) (hwf : ∀ r ∈ rows, r.WF)
    (hq1 : NoQuestionMark table) (hq2 : NoQuestionMark idCol)
    (hq3 : ∀ r ∈ rows, ∀ k ∈ r.keys, NoQuestionMark k) :
    countString (buildStatement table idCol rows).sqlStr questionMark =
      (buildStatement table idCol rows).args.length ∧
    (buildStatement table idCol rows).args =
      (batchColumns idCol rows).flatMap (fun col => rows.flatMap (cellArgs idCol col)) ++
        rows.map (rowId idCol) ∧
    (batchColumns idCol rows).Pairwise (fun a b => stringLess a b = true) ∧
    (∀ col, col ∈ batchColumns idCol rows ↔ col ≠ idCol ∧ ∃ r ∈ rows, col ∈ r.keys) ∧
    (buildStatement table idCol rows).args.length =
      2 * (rows.map (fun r => (dataColumns idCol r).length)).sum + rows.length ∧
    ∀ batchSize : Int, batchUpdate table idCol rows batchSize =
      if (rows.length : Int) ≠ batchSize then
        .error ("batchUpdate: ids count " ++ toString rows.length ++ " != batchSize " ++
          toString batchSize)
      else .exec (buildStatement table idCol rows).sqlStr (buildStatement table idCol rows).args := by
  obtain ⟨hsorted, hnd, hmem⟩ := batchColumns_spec idCol rows
  have hargs := buildStatement_args table idCol rows hwf
  have hcount := buildStatement_count table idCol rows hwf hq1 hq2 hq3
  have hlen : (buildStatement table idCol rows).args.length =
      ((batchColumns idCol rows).flatMap
        (fun col => rows.flatMap (cellArgs idCol col))).length + rows.length := by
    rw [hargs, List.length_append, List.length_map]
  have hpairs := args_length_pairs idCol (batchColumns idCol rows) rows hnd hwf
    (fun r hr k hk => (hmem k).mpr
      ⟨((mem_dataColumns idCol r k).mp hk).1, r, hr, by
        have := ((mem_dataColumns idCol r k).mp hk).2
        rwa [ne_eq, GoMap.get_eq_none, not_not] at this⟩)
  refine ⟨by rw [hcount, hlen], hargs, hsorted, hmem, by rw [hlen, hpairs], ?_⟩
  intro batchSize
  have h0 : rows.length ≠ 0 := fun h => hne (List.length_eq_zero.mp h)
  have hids : (buildStatement table idCol rows).ids.length = rows.length := by
    rw [buildStatement_ids, List.length_map]
  unfold batchUpdate
  rw [if_neg h0]
  simp only []
  rw [if_neg (by rw [hcount, hlen]; exact fun h => h rfl), hids]

theorem batchUpdate_placeholders_match_witness :
    countString (buildStatement "acc_expenses" "id" sampleRows).sqlStr questionMark =
      (buildStatement "acc_expenses" "id" sampleRows).args.length ∧
    (buildStatement "acc_expenses" "id" sampleRows).args.length = 2 * 4 + 2 :=
  have h := batchUpdate_placeholders_match "acc_expenses" "id" sampleRows
    (fun h => List.noConfusion h)
    (show ∀ r ∈ sampleRows, (r.entries.map Prod.fst).Nodup from by decide)
    (show questionMark ∉ "acc_expenses".data from by decide)
    (show questionMark ∉ "id".data from by decide)
    (show ∀ r ∈ sampleRows, ∀ k ∈ r.entries.map Prod.fst, questionMark ∉ k.data from by decide)
  ⟨h.1, h.2.2.2.2.1⟩

/-! ## Rounding to two decimals -/

/-- The natural number `roundHalfAway n d` is the nearest to `n / d`, and the
larger of the two nearest at a tie: `n/d - 1/2 < r ≤ n/d + 1/2`. -/
theorem roundHalfAway_nearest (n d : Nat) (hd : 0 < d) :
    2 * n < 2 * (roundHalfAway n d * d) + d ∧ 2 * (roundHalfAway n d * d) ≤ 2 * n + d := by
  have h1 := Nat.div_add_mod n d
  have h2 := Nat.mod_lt n hd
  unfold roundHalfAway
  split_ifs with h
  · rw [Nat.add_mul, Nat.one_mul, Nat.mul_comm (n / d) d]
    constructor <;> omega
  · rw [Nat.mul_comm (n / d) d]
    constructor <;> omega

set_option maxRecDepth 100000 in
theorem boundary_product :
    F64.mul (F64.ofDecimal 1005 1000) (F64.ofDecimal 1 1) =
      F64.fin false 4526117625507348 (-52) ∧
    F64.mul (F64.fin false 4526117625507348 (-52)) (F64.ofDecimal 100 1) =
      F64.fin false 7072058789855231 (-46) ∧
    F64.round (F64.fin false 7072058789855231 (-46)) = F64.ofDecimal 100 1 ∧
    F64.div (F64.ofDecimal 100 1) (F64.ofDecimal 100 1) = F64.ofDecimal 1 1 := by
  decide

set_option maxRecDepth 100000 in
/-- C12, as stated, fails: for `base = 1.005` and `rate = 1.0`, the value
`round2 (base * rate)` in the arithmetic of `float64` is not the `float64` of
1.01. -/
theorem round2_boundary_counterexample :
    round2Exact (F64.mul (F64.ofDecimal 1005 1000) (F64.ofDecimal 1 1)) ≠
      F64.ofDecimal 101 100 := by
  decide

/-- C12, amended: `round2 v` is `math.Round (v * 100) / 100` in the arithmetic
of `float64`, where `math.Round` takes the nearest integer and the one away from
zero at a tie. For `base = 1.005` and `rate = 1.0` the product `base * rate` is
the `float64` nearest to 1.005, which is below 1.005; times 100 it is the
`float64` just below 100.5, so `math.Round` gives 100 and `round2 (base * rate)`
is 1.00. -/
theorem round2_boundary_value :
    (∀ v : Float, round2 v = Float.round (v * 100) / 100) ∧
    (∀ v : F64, round2Exact v =
      F64.div (F64.round (F64.mul v (F64.ofDecimal 100 1))) (F64.ofDecimal 100 1)) ∧
    (∀ (neg : Bool) (m : Nat) (e : Int), e < 0 →
      F64.round (F64.fin neg m e) =
        F64.ofRatio neg (roundHalfAway m (2 ^ (-e).toNat)) 1 ∧
      2 * m < 2 * (roundHalfAway m (2 ^ (-e).toNat) * 2 ^ (-e).toNat) + 2 ^ (-e).toNat ∧
      2 * (roundHalfAway m (2 ^ (-e).toNat) * 2 ^ (-e).toNat) ≤ 2 * m + 2 ^ (-e).toNat) ∧
    F64.mul (F64.mul (F64.ofDecimal 1005 1000) (F64.ofDecimal 1 1)) (F64.ofDecimal 100 1) =
      F64.fin false 7072058789855231 (-46) ∧
    2 * 7072058789855231 < 201 * 2 ^ 46 ∧
    round2Exact (F64.mul (F64.ofDecimal 1005 1000) (F64.ofDecimal 1 1)) = F64.ofDecimal 1 1 := by
  obtain ⟨h1, h2, h3, h4⟩ := boundary_product
  refine ⟨fun _ => rfl, fun _ => rfl, ?_, ?_, by norm_num, ?_⟩
  · intro neg m e he
    have hd : 0 < 2 ^ (-e).toNat := Nat.pos_pow_of_pos _ (by decide)
    refine ⟨?_, roundHalfAway_nearest m _ hd⟩
    have hne : ¬ 0 ≤ e := not_le.mpr he
    simp only [F64.round, hne, if_false]
  · rw [h1, h2]
  · unfold round2Exact
    rw [h1, h2, h3, h4]

end Recompute
